import Mathlib

/-!
# osum-player: a shallow embedding of the browser client and the API middlewares

The client (`static/scripts/index.js`) is a set of manager classes whose static
fields form the program state. Each class becomes a structure holding the
fields its methods read and write, each method a function passing that state
explicitly. Numbers are rationals holding the value of a double (or integers
where the code only ever produces integers); the rounding of a quotient or a
product to the nearest double is modelled in the time display and the fill of
the seekbar, in the position handed to the media element and in the id read
from a request (section Numbers). Wall-clock
readings are integers in milliseconds, and the answers of the Catalog API are
parameters of the functions that request them.

The middlewares of the Catalog API (`server/src/api/songs/middlewares.js`) and
the YouTube integration they call follow the client, as functions from the
request and the response to their new values and the calls made.
-/

namespace OsumPlayer

/-! ## Local storage -/

/-- A value handed to `localStorage.setItem`. The browser keeps its string
form; the model keeps the value, tagged by the kind it was before it was
turned into that string. -/
inductive Stored where
  | num (q : ℚ)
  | bool (b : Bool)
  | str (s : String)
deriving DecidableEq

/-- The `localStorage` object: `getItem` yields `null` (here `none`) for a key
never written. -/
abbrev LocalStorage := String → Option Stored

/-- The method `localStorage.setItem(key, value)`. -/
def LocalStorage.setItem (ls : LocalStorage) (key : String) (value : Stored) : LocalStorage :=
  fun k => if k = key then some value else ls k

/-- The method `localStorage.getItem(key)`. -/
def LocalStorage.getItem (ls : LocalStorage) (key : String) : Option Stored := ls key

/-- A storage with nothing written. -/
def LocalStorage.empty : LocalStorage := fun _ => none

/-! ## PopupManager -/

/-- State of `PopupManager`: the text of `#popup-text`, whether `#popup`
carries the class `popup-active`, and the delay of the timer that will remove
the class again. -/
structure PopupManager where
  popupText : String
  active : Bool
  duration : Nat
deriving DecidableEq

/-- The method `PopupManager.showPopup(text, duration)`; callers that omit the
duration get `defaultDuration`. -/
def PopupManager.showPopup (_p : PopupManager) (text : String) (duration : Nat) :
    PopupManager :=
  { popupText := text, active := true, duration := duration }

/-- The default of the parameter `duration` of `showPopup`. -/
def PopupManager.defaultDuration : Nat := 1000

/-! ## PlayModeManager -/

/-- State of `PlayModeManager`: the field `currentPlayMode`. -/
structure PlayModeManager where
  currentPlayMode : Int
deriving DecidableEq

namespace PlayModeManager

def AUTOPLAY : Int := 0
def RANDOM : Int := 1
def REPEAT : Int := 2
def ONCE : Int := 3

/-- The map `playModes`, in insertion order. -/
def playModes : List (Int × String) :=
  [(AUTOPLAY, "Autoplay"), (RANDOM, "Random"), (REPEAT, "Repeat"), (ONCE, "Once")]

/-- The call `playModes.get(mode)`; a missing key gives `undefined`, which the
popup text shows as the word undefined. -/
def playModeName (mode : Int) : String :=
  match playModes.lookup mode with
  | some name => name
  | none => "undefined"

/-- The method `getCurrentPlayMode`. -/
def getCurrentPlayMode (pm : PlayModeManager) : Int := pm.currentPlayMode

/-- The method `rotatePlayMode`: advance the mode modulo `playModes.size`
(the remainder of JavaScript takes the sign of the dividend), persist it under
`"playMode"` and show its name. -/
def rotatePlayMode (pm : PlayModeManager) (ls : LocalStorage) (popup : PopupManager) :
    PlayModeManager × LocalStorage × PopupManager :=
  let currentPlayMode := Int.tmod (pm.currentPlayMode + 1) (playModes.length : Int)
  let ls := ls.setItem "playMode" (Stored.num currentPlayMode)
  let playMode := playModeName currentPlayMode
  ({ currentPlayMode := currentPlayMode }, ls, popup.showPopup playMode PopupManager.defaultDuration)

/-- Rotating `n` times in a row. -/
def rotateTimes : Nat → PlayModeManager × LocalStorage × PopupManager →
    PlayModeManager × LocalStorage × PopupManager
  | 0, s => s
  | n + 1, s => rotateTimes n (rotatePlayMode s.1 s.2.1 s.2.2)

end PlayModeManager

/-! ## Song -/

/-- A song record as the Catalog API sends it. -/
structure SongJSON where
  title : String
  artist : String
  image : Option String
  modified : Int
  id : Int
deriving DecidableEq

/-- The class `Song`. The field `modified` is the `Date` built from the JSON
value, kept as its time value in milliseconds; `marker` is `none` while it is
`undefined` (not fetched yet). -/
structure Song where
  title : String
  artist : String
  image : String
  file : String
  modified : Int
  marker : Option (List ℚ)
  id : Int
deriving DecidableEq

/-- Truthiness of the JSON field `image`: absent and empty are falsy. -/
def imageTruthy : Option String → Bool
  | none => false
  | some s => s != ""

/-- The constructor of `Song`; `songApi` is the static field `Song.api`. -/
def Song.new (songApi : String) (title artist : String) (image : Option String)
    (modified : Int) (id : Int) : Song :=
  let api := songApi ++ "/" ++ toString id
  { title := title
    artist := artist
    image := if imageTruthy image then api ++ "/image" else "assets/placeholder.png"
    file := api ++ "/file"
    modified := modified
    marker := none
    id := id }

/-- The static method `Song.fromJSON`. -/
def Song.fromJSON (songApi : String) (json : SongJSON) : Song :=
  Song.new songApi json.title json.artist json.image json.modified json.id

/-! ## ApiManager -/

/-- A request sent to the Catalog API. -/
inductive Request where
  | songsOffset (offset : Int) (sortByModifiedDate : Bool)
  | songsMultiple (ids : List Int)
  | songsQuery (query : String) (limit offset : Nat)
deriving DecidableEq

/-- State of `ApiManager` together with the catalog it talks to: the static
field `Song.api` its initializer sets, and for each endpoint the answer of the
server, `Except.error status` when the response is not `ok` (the promise of
`request` is then rejected with that status). -/
structure ApiManager where
  songApi : String
  songsOffset : Int → Bool → Except Nat (List SongJSON)
  songsMultiple : List Int → Except Nat (List SongJSON)
  songsQuery : String → Nat → Nat → Except Nat (List SongJSON)

/-- The outcome of an asynchronous method of `SongManager`: the state it
leaves, the requests it sent, in order, and how its promise settled. -/
structure Run (σ α : Type) where
  state : σ
  requests : List Request
  result : Except Nat α

/-- The method `ApiManager.getSongIds(offset, sortByModifiedDate)`: the ids of
the page, in the order of the response. -/
def ApiManager.getSongIds (api : ApiManager) (offset : Int) (sortByModifiedDate : Bool) :
    List Request × Except Nat (List Int) :=
  ([Request.songsOffset offset sortByModifiedDate],
    (api.songsOffset offset sortByModifiedDate).map (fun response => response.map (·.id)))

/-- The method `ApiManager.getSongs(ids)`: the batch fetch. -/
def ApiManager.getSongs (api : ApiManager) (ids : List Int) :
    List Request × Except Nat (List Song) :=
  ([Request.songsMultiple ids],
    (api.songsMultiple ids).map (fun json => json.map (Song.fromJSON api.songApi)))

/-- The method `ApiManager.querySongs(query, limit = 20, offset = 0)`. -/
def ApiManager.querySongs (api : ApiManager) (query : String) (limit offset : Nat) :
    List Request × Except Nat (List Int) :=
  ([Request.songsQuery query limit offset],
    (api.songsQuery query limit offset).map (fun songs => songs.map (·.id)))

/-! ## Numbers

A Number of JavaScript is a double. Small whole numbers and the values computed from them
by exact operations are kept as rationals or integers. The rounding of a quotient or a
product to the nearest double is modelled with `roundDouble` in the time display and the
fill of the seekbar, in the position handed to the media element and in the id read from a
request. -/

/-- Rounding to the nearest integer, a tie going to the even one. -/
def roundHalfEven (y : ℚ) : Int :=
  let f := ⌊y⌋
  if y - f < 1 / 2 then f
  else if 1 / 2 < y - f then f + 1
  else if f % 2 = 0 then f else f + 1

/-- The spacing of the doubles around `x`: `2 ^ (e - 52)` for `2 ^ e ≤ |x| < 2 ^ (e + 1)`,
with the exponent `e` held at `-1022` in the subnormal range. -/
def ulp (x : ℚ) : ℚ := (2 : ℚ) ^ (max (Int.log 2 |x|) (-1022) - 52)

/-- The double nearest to `x`, a tie going to the even significand. Overflow is left to
`toDouble`. -/
def roundDouble (x : ℚ) : ℚ := (roundHalfEven (x / ulp x) : ℚ) * ulp x

/-- The Number value of a real: the nearest double, or `none` for an infinity, which is
the result from `2 ^ 1024 - 2 ^ 970` on, half a spacing above the largest double. -/
def toDouble (x : ℚ) : Option ℚ :=
  if (2 : ℚ) ^ (1024 : ℕ) - (2 : ℚ) ^ (970 : ℕ) ≤ |x| then none else some (roundDouble x)

/-- The decimal with the fewest significant digits that rounds to the integral double `a`:
for `k = 1, 2, ...` the multiples of `10 ^ (n - k)` next to `a` (`n` the number of digits of
`a`) are tried; of two that round to `a` the closer one is taken, the one with the even
digit on a tie. Seventeen digits always suffice. -/
def shortestDecimal (a : ℕ) : ℕ :=
  let n := (Nat.toDigits 10 a).length
  let pick (k : ℕ) : Option ℕ :=
    let p := 10 ^ (n - k)
    let lo := a / p * p
    let hi := (a / p + 1) * p
    let okLo := decide (roundDouble (lo : ℚ) = (a : ℚ))
    let okHi := decide (roundDouble (hi : ℚ) = (a : ℚ))
    if okLo && okHi then
      if a - lo < hi - a then some lo
      else if hi - a < a - lo then some hi
      else if a / p % 2 = 0 then some lo else some hi
    else if okLo then some lo
    else if okHi then some hi
    else none
  (((List.range 17).map (· + 1)).findSome? pick).getD a

/-- The digits of `v` without its trailing zeros. -/
def significantDigits (v : ℕ) : List Char :=
  ((Nat.toDigits 10 v).reverse.dropWhile (· == '0')).reverse

/-- The string of a positive integral double `a` of `2 ^ 53` or more: the shortest decimal
that reads back as `a`, written out in full below `10 ^ 21` and with an exponent from
there on. -/
def largeToString (a : ℕ) : String :=
  let v := shortestDecimal a
  if v < 10 ^ 21 then toString v
  else
    let e := (Nat.toDigits 10 v).length - 1
    match significantDigits v with
    | [] => toString v
    | [d] => String.mk [d] ++ "e+" ++ toString e
    | d :: ds => String.mk (d :: '.' :: ds) ++ "e+" ++ toString e

/-- The string form of an integral Number (`Number::toString`): the decimal numeral while
every digit is significant (below `2 ^ 53`), otherwise the shortest decimal that reads back
as the same double. -/
def numberToString (v : Int) : String :=
  if v.natAbs < 2 ^ 53 then toString v
  else (if v < 0 then "-" else "") ++ largeToString v.natAbs

/-- An integral Number: an integer that is a double, or an infinity. -/
inductive IntegralNumber where
  | finite (n : Int)
  | infinity (negative : Bool)
deriving DecidableEq

instance (n : ℕ) : OfNat IntegralNumber n := ⟨.finite n⟩

instance : Neg IntegralNumber :=
  ⟨fun v => match v with
    | .finite n => .finite (-n)
    | .infinity negative => .infinity (!negative)⟩

/-- The Number value of a mathematical integer: the integer itself below `2 ^ 53`, where
every integer is a double (`numberOfInt_eq_nearest` shows that the nearest double is taken
there too), the nearest double above, an infinity beyond the doubles. -/
def numberOfInt (n : Int) : IntegralNumber :=
  if n.natAbs < 2 ^ 53 then .finite n
  else
    match toDouble (n : ℚ) with
    | some x => .finite ⌊x⌋
    | none => .infinity (decide (n < 0))

/-! ## AudioManager -/

/-- How a statement sequence ends: normally, or by a thrown `TypeError`; either
way with the state reached at that point. -/
inductive Completion (σ : Type) where
  | normal (st : σ)
  | threw (st : σ)

/-- The state a completion carries. -/
def Completion.state {σ : Type} : Completion σ → σ
  | .normal st => st
  | .threw st => st

/-- The fields of an `Audio` element the client uses. `duration` is `none`
while it is `NaN` (no metadata yet). -/
structure Audio where
  src : Option String
  volume : ℚ
  currentTime : ℚ
  duration : Option ℚ
  paused : Bool
deriving DecidableEq

/-- Assigning `value` to the attribute `currentTime` of a media element, which seeks: with
the metadata loaded, a position later than the end of the resource becomes the end and a
position before the start becomes the start (the whole resource is taken to be seekable);
before that the value is kept as the position playback will start from. -/
def Audio.setCurrentTime (audio : Audio) (value : ℚ) : Audio :=
  match audio.duration with
  | some duration => { audio with currentTime := max 0 (min value duration) }
  | none => { audio with currentTime := value }

/-- State of `AudioManager`. `lastInteractionAudioPlay` is `none` while the
field is `undefined`. -/
structure AudioManager where
  songAudio : Audio
  interactionAudio : Audio
  imagePaused : Bool
  lastInteractionAudioPlay : Option Int
deriving DecidableEq

/-- The function `Math.round`: nearest integer, halves going up. -/
def mathRound (x : ℚ) : Int := ⌊x + 1 / 2⌋

namespace AudioManager

/-- The method `pauseImage`. -/
def pauseImage (am : AudioManager) : AudioManager :=
  if am.imagePaused then am else { am with imagePaused := true }

/-- The method `getVolume`. -/
def getVolume (am : AudioManager) : Int := mathRound (am.songAudio.volume * 100)

/-- The method `getDuration`: `songAudio.duration || 0`. -/
def getDuration (am : AudioManager) : ℚ := am.songAudio.duration.getD 0

/-- The method `getCurrentTime`. -/
def getCurrentTime (am : AudioManager) : ℚ := am.songAudio.currentTime

/-- The method `playInteractionAudio(wait)` called when `Date.now()` reads
`now`. A comparison with the `undefined` time stamp is false. -/
def playInteractionAudio (am : AudioManager) (now : Int) (wait : Int) : AudioManager :=
  match am.lastInteractionAudioPlay with
  | some last =>
    if now - last < wait then am
    else
      { am with
        lastInteractionAudioPlay := some now
        interactionAudio :=
          { am.interactionAudio with
            volume := (am.getVolume : ℚ) / 100, currentTime := 0, paused := false } }
  | none =>
      { am with
        lastInteractionAudioPlay := some now
        interactionAudio :=
          { am.interactionAudio with
            volume := (am.getVolume : ℚ) / 100, currentTime := 0, paused := false } }

/-- The method `setVolume(volume)`. -/
def setVolume (am : AudioManager) (ls : LocalStorage) (now : Int) (volume : ℚ) :
    AudioManager × LocalStorage :=
  let am := am.playInteractionAudio now 0
  let volume := if volume < 0 then 0 else if volume > 100 then 100 else volume
  let ls := ls.setItem "volume" (Stored.num volume)
  ({ am with songAudio := { am.songAudio with volume := volume / 100 } }, ls)

/-- The method `showVolumePopup`. -/
def showVolumePopup (am : AudioManager) (popup : PopupManager) : PopupManager :=
  popup.showPopup (toString am.getVolume ++ "%") PopupManager.defaultDuration

/-- The method `addVolume(amount)`. -/
def addVolume (am : AudioManager) (ls : LocalStorage) (popup : PopupManager) (now : Int)
    (amount : ℚ) : AudioManager × LocalStorage × PopupManager :=
  let r := am.setVolume ls now ((am.getVolume : ℚ) + amount)
  (r.1, r.2, r.1.showVolumePopup popup)

/-- The method `changeVolume(increase)`. -/
def changeVolume (am : AudioManager) (ls : LocalStorage) (popup : PopupManager) (now : Int)
    (increase : Bool) : AudioManager × LocalStorage × PopupManager :=
  let currentVolume := am.getVolume
  let delta : ℚ :=
    if increase then (if currentVolume < 5 then 1 else 5)
    else (if currentVolume ≤ 5 then -1 else -5)
  am.addVolume ls popup now delta

/-- The right-hand side `this.getDuration() * progress` of the assignment in
`setProgress`: the product as a double, `none` when it overflows to an infinity. -/
def progressTime (am : AudioManager) (progress : ℚ) : Option ℚ :=
  toDouble (am.getDuration * progress)

/-- The method `setProgress(progress)` of `AudioManager`: the product is assigned to
`songAudio.currentTime` as it is. The attribute takes finite values only, so the assignment
of an infinity throws a `TypeError` and changes nothing. -/
def setProgress (am : AudioManager) (progress : ℚ) : Completion AudioManager :=
  match am.progressTime progress with
  | some value => .normal { am with songAudio := am.songAudio.setCurrentTime value }
  | none => .threw am

/-- Reading the progress back, as the `ontimeupdate` handler does:
`getCurrentTime() / getDuration()`, a double; `none` when the duration is zero (the
quotient is then `NaN` or an infinity) or the quotient overflows. -/
def getProgress (am : AudioManager) : Option ℚ :=
  if am.getDuration = 0 then none else toDouble (am.getCurrentTime / am.getDuration)

end AudioManager

/-! ## SongManager -/

/-- Whether the string form of a stored value is a non-empty string. Numbers
and booleans never print as the empty string. -/
def Stored.nonEmpty : Stored → Bool
  | .num _ => true
  | .bool _ => true
  | .str s => s != ""

/-- A value of the field `sortByModifiedDate`: a boolean, or a string read back
from local storage (given by the stored value it is the string form of). -/
inductive SortFlag where
  | bool (b : Bool)
  | string (s : Stored)
deriving DecidableEq

/-- Truthiness of the flag, as `if (sortByModifiedDate)` tests it. -/
def SortFlag.truthy : SortFlag → Bool
  | .bool b => b
  | .string s => s.nonEmpty

/-- A child of `#song-list` made by `createSongItem`. The DOM keeps the id as
the decimal string of the song id; the model keeps the integer it denotes
(`playSongId` recovers it with `parseInt`). -/
structure SongItem where
  id : Int
  title : String
  artist : String
  image : String
deriving DecidableEq

/-- A reference to an item element: the child at a position of its list
element (`#song-list` or `#search-results`), or an element no longer in the
document. -/
inductive ItemRef where
  | child (i : Nat)
  | detached
deriving DecidableEq

/-- State of `SongManager`. `songs` is the `Map`, as its entries in insertion
order; the time stamps are `none` while `undefined`. The class
`song-item-active` is carried by the element `currentSongItem` refers to. -/
structure SongManager where
  songs : List (Int × Song)
  songList : List SongItem
  currentSongItem : Option ItemRef
  currentSong : Option Song
  offset : Int
  sortByModifiedDate : SortFlag
  selectNextTimeout : Option Int
  selectPreviousTimeout : Option Int
deriving DecidableEq

/-- The property `nextElementSibling` of an item of a list element. -/
def nextElementSibling {α : Type} (children : List α) : ItemRef → Option ItemRef
  | .child i => if i + 1 < children.length then some (.child (i + 1)) else none
  | .detached => none

/-- The property `previousElementSibling` of an item of a list element. -/
def previousElementSibling {α : Type} (_children : List α) : ItemRef → Option ItemRef
  | .child i => if 0 < i then some (.child (i - 1)) else none
  | .detached => none

/-- The property `firstElementChild` of a list element. -/
def firstElementChild {α : Type} (children : List α) : Option ItemRef :=
  if 0 < children.length then some (.child 0) else none

/-- The property `lastElementChild` of a list element. -/
def lastElementChild {α : Type} (children : List α) : Option ItemRef :=
  if 0 < children.length then some (.child (children.length - 1)) else none

namespace SongManager

/-- The field `selectPrevNextWaitTime`. -/
def selectPrevNextWaitTime : Int := 100

/-- The state the static initializer builds before its first page request. -/
def init (ls : LocalStorage) : SongManager :=
  { songs := []
    songList := []
    currentSongItem := none
    currentSong := none
    offset := 0
    sortByModifiedDate :=
      match ls.getItem "sortByModifiedDate" with
      | some s => if s.nonEmpty then .string s else .bool true
      | none => .bool true
    selectNextTimeout := none
    selectPreviousTimeout := none }

/-- The method `isSortedByModifiedDate`. -/
def isSortedByModifiedDate (sm : SongManager) : SortFlag := sm.sortByModifiedDate

/-- The call `songs.has(id)`. -/
def has (sm : SongManager) (id : Int) : Bool := sm.songs.any (fun e => e.1 == id)

/-- The call `songs.get(id)`. -/
def get (sm : SongManager) (id : Int) : Option Song := sm.songs.lookup id

/-- The call `songs.set(id, song)` on the entries of the map. -/
def mapSet (songs : List (Int × Song)) (id : Int) (song : Song) : List (Int × Song) :=
  if songs.any (fun e => e.1 == id) then
    songs.map (fun e => if e.1 == id then (id, song) else e)
  else songs ++ [(id, song)]

/-- The method `createSongItem`. -/
def createSongItem (song : Song) : SongItem :=
  { id := song.id, title := song.title, artist := song.artist, image := song.image }

/-- The method `addSongToList`. -/
def addSongToList (sm : SongManager) (song : Song) : SongManager :=
  { sm with songList := sm.songList ++ [createSongItem song] }

/-- The method `add`. -/
def add (sm : SongManager) (song : Song) : SongManager :=
  if sm.has song.id then sm
  else addSongToList { sm with songs := mapSet sm.songs song.id song } song

/-- The comparator sort `sort((a, b) => b.modified - a.modified)`: a stable sort
by modified time, latest first. -/
def sortByModified (songs : List Song) : List Song :=
  songs.insertionSort (fun a b => b.modified ≤ a.modified)

/-- The method `getSongs(ids)`. -/
def getSongs (api : ApiManager) (sm : SongManager) (ids : List Int) :
    Run SongManager (List Song) :=
  let songs := ids.filterMap (fun id => sm.get id)
  let missingSongs := ids.filter (fun id => !sm.has id)
  if missingSongs.length == 0 then ⟨sm, [], .ok songs⟩
  else
    match api.getSongs missingSongs with
    | (requests, .error status) => ⟨sm, requests, .error status⟩
    | (requests, .ok fetched) =>
      let newSongs := if sm.sortByModifiedDate.truthy then sortByModified fetched else fetched
      ⟨newSongs.foldl add sm, requests, .ok (songs ++ newSongs)⟩

/-- The method `getNewSongs`. The promise resolves with `undefined` (here
`none`) on the two early returns. -/
def getNewSongs (api : ApiManager) (sm : SongManager) :
    Run SongManager (Option (List Song)) :=
  if sm.offset == -1 then ⟨sm, [], .ok none⟩
  else
    match api.getSongIds sm.offset sm.sortByModifiedDate.truthy with
    | (requests, .error status) => ⟨sm, requests, .error status⟩
    | (requests, .ok ids) =>
      if h : ids.length = 0 then ⟨{ sm with offset := -1 }, requests, .ok none⟩
      else
        let offset :=
          if sm.sortByModifiedDate.truthy then sm.offset + 1
          else ids.getLast (List.ne_nil_of_length_pos (Nat.pos_of_ne_zero h)) + 1
        let r := getSongs api { sm with offset := offset } ids
        ⟨r.state, requests ++ r.requests, r.result.map some⟩

/-- The method `querySongs(query)`. -/
def querySongs (api : ApiManager) (sm : SongManager) (query : String) :
    Run SongManager (List Song) :=
  match api.querySongs query 20 0 with
  | (requests, .error status) => ⟨sm, requests, .error status⟩
  | (requests, .ok ids) =>
    if ids.length == 0 then ⟨sm, requests, .ok []⟩
    else
      let r := getSongs api sm ids
      ⟨r.state, requests ++ r.requests, r.result⟩

/-- The method `setActive(songItem)`. -/
def setActive (sm : SongManager) (songItem : Option ItemRef) : SongManager :=
  { sm with currentSongItem := songItem }

/-- The method `scrollToCurrentSongItem`: calling `scrollIntoView` on `null`
throws. -/
def scrollToCurrentSongItem (sm : SongManager) : Completion SongManager :=
  match sm.currentSongItem with
  | some _ => .normal sm
  | none => .threw sm

/-- The method `selectNext` called when `Date.now()` reads `now`. -/
def selectNext (sm : SongManager) (am : AudioManager) (now : Int) :
    Completion (SongManager × AudioManager) :=
  let inCooldown :=
    match sm.selectNextTimeout with
    | some last => decide (now - last < selectPrevNextWaitTime)
    | none => false
  if inCooldown then .normal (sm, am)
  else
    let sm := { sm with selectNextTimeout := some now }
    let am := am.pauseImage
    let next :=
      match sm.currentSongItem with
      | some current =>
        match nextElementSibling sm.songList current with
        | some next => some next
        | none => firstElementChild sm.songList
      | none => firstElementChild sm.songList
    match scrollToCurrentSongItem (sm.setActive next) with
    | .normal sm => .normal (sm, am)
    | .threw sm => .threw (sm, am)

/-- The method `selectPrevious` called when `Date.now()` reads `now`. -/
def selectPrevious (sm : SongManager) (am : AudioManager) (now : Int) :
    Completion (SongManager × AudioManager) :=
  let inCooldown :=
    match sm.selectPreviousTimeout with
    | some last => decide (now - last < selectPrevNextWaitTime)
    | none => false
  if inCooldown then .normal (sm, am)
  else
    let sm := { sm with selectPreviousTimeout := some now }
    let am := am.pauseImage
    let next :=
      match sm.currentSongItem with
      | some current =>
        match previousElementSibling sm.songList current with
        | some next => some next
        | none => lastElementChild sm.songList
      | none => lastElementChild sm.songList
    match scrollToCurrentSongItem (sm.setActive next) with
    | .normal sm => .normal (sm, am)
    | .threw sm => .threw (sm, am)

end SongManager

/-- The method `toggleSortByModifiedDate`: the flag is negated and persisted,
the visible list and the cache are emptied (the active item, if any, is then
an element outside the document), the cursor goes back to 0 and the first page
is requested; the popup follows when that request resolves. -/
def SongManager.toggleSortByModifiedDate (api : ApiManager) (sm : SongManager)
    (ls : LocalStorage) (popup : PopupManager) :
    Run SongManager (Option (List Song)) × LocalStorage × PopupManager :=
  let flag := !sm.sortByModifiedDate.truthy
  let ls := ls.setItem "sortByModifiedDate" (Stored.bool flag)
  let sm :=
    { sm with
      sortByModifiedDate := .bool flag
      songList := []
      currentSongItem := sm.currentSongItem.map (fun _ => ItemRef.detached)
      offset := 0
      songs := [] }
  let r := SongManager.getNewSongs api sm
  let popup :=
    match r.result with
    | .ok _ =>
      popup.showPopup ("Date " ++ (if flag then "modified" else "added"))
        PopupManager.defaultDuration
    | .error _ => popup
  (r, ls, popup)

/-! ## SeekbarManager -/

/-- Truncation toward zero, as the remainder operator of JavaScript uses it. -/
def jsTrunc (x : ℚ) : Int := if 0 ≤ x then ⌊x⌋ else ⌈x⌉

/-- The operator `x % y` on numbers: the remainder has the sign of `x`. -/
def jsRem (x y : ℚ) : ℚ := x - y * jsTrunc (x / y)

/-- The argument of the drag handler: the object `{ time, x }` that `onSeek` and
`onSeekStop` build from the time stamp and the horizontal position of the event, or the
`MouseEvent` itself when the handler runs as `document.onmousemove`; the event has the
property `x` and no property `time` (here `none` for `undefined`). -/
structure Touch where
  time : Option ℚ
  x : ℚ
deriving DecidableEq

/-- State of `SeekbarManager`: the width of `#seekbar-progress` in percent, the
two time texts, the layout width `seekbar.offsetWidth`, and the bookkeeping of
the drag handler (`lastSetProgressCall` is `none` while `undefined`). -/
structure SeekbarManager where
  progressWidth : ℚ
  currentTimeText : String
  durationText : String
  offsetWidth : ℚ
  lastProgressX : ℚ
  lastSetProgressCall : Option ℚ
deriving DecidableEq

namespace SeekbarManager

/-- The method `formatMinutes(time)` for a finite `time`: the quotient `time / 60` is
rounded to a double before `Math.floor`; the remainder of two doubles is exact. -/
def formatMinutes (time : ℚ) : String :=
  let minutes := ⌊roundDouble (time / 60)⌋
  let seconds := ⌊jsRem time 60⌋
  numberToString minutes ++ ":" ++ (if seconds < 10 then "0" else "")
    ++ numberToString seconds

/-- The method `setProgress(progress)` of `SeekbarManager`. With the progress in `[0,1]`
neither product leaves the range of the doubles. -/
def setProgress (sb : SeekbarManager) (am : AudioManager) (progress : ℚ) : SeekbarManager :=
  let progress := if progress < 0 then 0 else progress
  let progress := if progress > 1 then 1 else progress
  let currentTime := roundDouble (am.getDuration * progress)
  { sb with
    progressWidth := roundDouble (progress * 100)
    currentTimeText := formatMinutes currentTime }

/-- The method `setDuration(duration)`. -/
def setDuration (sb : SeekbarManager) (duration : ℚ) : SeekbarManager :=
  { sb with durationText := formatMinutes duration }

/-- The closure `setProgress(touch)` of the static initializer, the handler of
pointer moves during a drag, run when `Date.now()` reads `now`. The difference
`touch.time - this.lastSetProgressCall` is `NaN` when either side is `undefined`, and the
comparison is then false. The quotient `touch.x / offsetWidth` is modelled for a width of
at least one pixel. -/
def setProgressTouch (sb : SeekbarManager) (am : AudioManager) (popup : PopupManager)
    (now : Int) (touch : Touch) : Completion (SeekbarManager × AudioManager × PopupManager) :=
  let tooSoon :=
    match touch.time, sb.lastSetProgressCall with
    | some time, some last => decide (time - last < 4)
    | _, _ => false
  if tooSoon then .normal (sb, am, popup)
  else
    let sb := { sb with lastSetProgressCall := touch.time }
    let moved := decide (|sb.lastProgressX - touch.x| > 20)
    let am := if moved then am.playInteractionAudio now 60 else am
    let sb := if moved then { sb with lastProgressX := touch.x } else sb
    let calculateProgress := roundDouble (touch.x / sb.offsetWidth)
    let sb := sb.setProgress am calculateProgress
    match am.setProgress calculateProgress with
    | .threw am => .threw (sb, am, popup)
    | .normal am => .normal (sb, am, popup.showPopup sb.currentTimeText 500)

end SeekbarManager

/-! ## SearchManager -/

/-- What a pending timer will run: the debounced search of `updateSearch`, or
the clean-up `toggle` schedules when the search closes. -/
inductive TimerAction where
  | search
  | closeSearch
deriving DecidableEq

/-- A pending timer: the id `setTimeout` returned, the time it is due, and its
callback. -/
structure Timer where
  id : Nat
  due : Int
  action : TimerAction
deriving DecidableEq

/-- The timers of the window. -/
structure Timers where
  nextId : Nat
  pending : List Timer
deriving DecidableEq

/-- The call `setTimeout(callback, delay)` made at time `now`: the new table
and the id returned. -/
def Timers.setTimeout (t : Timers) (now : Int) (delay : Int) (action : TimerAction) :
    Timers × Nat :=
  ({ nextId := t.nextId + 1, pending := t.pending ++ [⟨t.nextId, now + delay, action⟩] },
    t.nextId)

/-- The call `clearTimeout(id)`; an `undefined` id (here `none`) clears nothing. -/
def Timers.clearTimeout (t : Timers) : Option Nat → Timers
  | none => t
  | some id => { t with pending := t.pending.filter (fun timer => timer.id != id) }

/-- A child of `#search-results` made by `addResult`. -/
structure ResultItem where
  id : Int
  title : String
  artist : String
deriving DecidableEq

/-- The object `this` is bound to inside `updateSearch`: the class
`SearchManager` when called as `SearchManager.updateSearch()`, the element
`#search-input` when run as the listener registered with
`addEventListener("input", this.updateSearch)`. -/
inductive Receiver where
  | searchManager
  | searchInput
deriving DecidableEq

/-- State of `SearchManager` and of its input element. `searchTimeout` is the
static field of the class, `inputSearchTimeout` the property of the same name
on the element `#search-input`; both are `none` while `undefined`. -/
structure SearchManager where
  searchInputIsSelected : Bool
  visible : Bool
  searchInputValue : String
  results : List ResultItem
  currentResultItem : Option ItemRef
  searchTimeout : Option Nat
  inputSearchTimeout : Option Nat
deriving DecidableEq

namespace SearchManager

/-- The state the static initializer builds. -/
def init : SearchManager :=
  { searchInputIsSelected := false
    visible := false
    searchInputValue := ""
    results := []
    currentResultItem := none
    searchTimeout := none
    inputSearchTimeout := none }

/-- Reading `this.searchTimeout`. -/
def getSearchTimeout (s : SearchManager) : Receiver → Option Nat
  | .searchManager => s.searchTimeout
  | .searchInput => s.inputSearchTimeout

/-- Writing `this.searchTimeout`. -/
def setSearchTimeout (s : SearchManager) (this : Receiver) (id : Nat) : SearchManager :=
  match this with
  | .searchManager => { s with searchTimeout := some id }
  | .searchInput => { s with inputSearchTimeout := some id }

/-- The method `clearResults`. -/
def clearResults (s : SearchManager) : SearchManager :=
  { s with currentResultItem := none, results := [] }

/-- The method `isActive`. -/
def isActive (s : SearchManager) : Bool := s.visible

/-- The method `isSearchSelected`. -/
def isSearchSelected (s : SearchManager) : Bool := s.searchInputIsSelected

/-- The method `updateSearch` run at time `now` with the given `this`. -/
def updateSearch (s : SearchManager) (t : Timers) (this : Receiver) (now : Int) :
    SearchManager × Timers :=
  if s.searchInputValue.length == 0 then
    (s.clearResults, t.clearTimeout (s.getSearchTimeout this))
  else
    let t := t.clearTimeout (s.getSearchTimeout this)
    let r := t.setTimeout now 200 .search
    (s.setSearchTimeout this r.2, r.1)

/-- The method `addResult(song)`. -/
def addResult (s : SearchManager) (song : Song) : SearchManager :=
  { s with results := s.results ++ [⟨song.id, song.title, song.artist⟩] }

/-- The method `setActive(resultItem)`: the input is blurred when an item is
given and focused otherwise, which its `onblur` and `onfocus` handlers record. -/
def setActive (s : SearchManager) (resultItem : Option ItemRef) : SearchManager :=
  { s with searchInputIsSelected := resultItem.isNone, currentResultItem := resultItem }

/-- The method `selectNext` of `SearchManager`. -/
def selectNext (s : SearchManager) : SearchManager :=
  match s.currentResultItem with
  | some current =>
    match nextElementSibling s.results current with
    | some next => s.setActive (some next)
    | none => s.setActive none
  | none => s.setActive (firstElementChild s.results)

/-- The method `selectPrevious` of `SearchManager`. -/
def selectPrevious (s : SearchManager) : SearchManager :=
  match s.currentResultItem with
  | some current =>
    match previousElementSibling s.results current with
    | some next => s.setActive (some next)
    | none => s.setActive none
  | none => s.setActive (lastElementChild s.results)

/-- The method `toggle` run at time `now`. -/
def toggle (s : SearchManager) (t : Timers) (now : Int) : SearchManager × Timers :=
  if s.visible then ({ s with visible := !s.visible }, (t.setTimeout now 100 .closeSearch).1)
  else ({ s with visible := !s.visible }, t)

end SearchManager

/-- The parts of the page the search touches: the two managers, the timers of
the window and the requests sent to the catalog so far. -/
structure Client where
  search : SearchManager
  songs : SongManager
  timers : Timers
  requests : List Request
deriving DecidableEq

namespace Client

/-- The page after the static initializers, before any request. -/
def init : Client :=
  { search := SearchManager.init
    songs := SongManager.init LocalStorage.empty
    timers := { nextId := 0, pending := [] }
    requests := [] }

/-- The callback `updateSearch` hands to `setTimeout`: query the catalog with
the value the input has now and, when the promise resolves, show the songs
found. -/
def searchCallback (api : ApiManager) (c : Client) : Client :=
  let r := SongManager.querySongs api c.songs c.search.searchInputValue
  let search :=
    match r.result with
    | .error _ => c.search
    | .ok found =>
      let s := c.search.clearResults
      let found :=
        if r.state.isSortedByModifiedDate.truthy then SongManager.sortByModified found
        else found
      (found.foldl SearchManager.addResult s).selectNext
  { c with search := search, songs := r.state, requests := c.requests ++ r.requests }

/-- The callback `toggle` hands to `setTimeout` when the search closes. -/
def closeCallback (c : Client) : Client :=
  { c with search := { c.search with searchInputValue := "" }.clearResults }

/-- Running the callback of a timer. -/
def fire (api : ApiManager) (c : Client) (timer : Timer) : Client :=
  match timer.action with
  | .search => searchCallback api c
  | .closeSearch => closeCallback c

/-- Time passes until `now`: the timers due by then run, earliest first, and
leave the table. -/
def advance (api : ApiManager) (c : Client) (now : Int) : Client :=
  let due := (c.timers.pending.filter (fun timer => timer.due ≤ now)).insertionSort
    (fun a b => a.due ≤ b.due)
  let rest := c.timers.pending.filter (fun timer => ¬ timer.due ≤ now)
  due.foldl (fire api) { c with timers := { c.timers with pending := rest } }

/-- The branch of `document.onkeydown` taken for a character key (key code 48
to 90) while the search is closed and no modifier is held: open the search,
seed the input with the key and call `SearchManager.updateSearch()`; the focus
then moves to the input. -/
def keydownSeed (c : Client) (now : Int) (key : String) : Client :=
  let r := c.search.toggle c.timers now
  let s := { r.1 with searchInputValue := key }
  let r := s.updateSearch r.2 .searchManager now
  { c with search := { r.1 with searchInputIsSelected := true }, timers := r.2 }

/-- An `input` event on `#search-input` at time `now`: the input holds `value`
and the listener registered by the static initializer runs, with `this` bound
to the input element. -/
def inputEvent (c : Client) (now : Int) (value : String) : Client :=
  let s := { c.search with searchInputValue := value }
  let r := s.updateSearch c.timers .searchInput now
  { c with search := r.1, timers := r.2 }

end Client

/-! ## Markers -/

/-- The body of a marker `PATCH`: a marker value to add, or the word `clear`. -/
inductive MarkerPatch where
  | add (marker : ℚ)
  | clear
deriving DecidableEq

/-- A marker request sent to the Catalog API. -/
inductive MarkerRequest where
  | getMarker (id : Int)
  | editSongMarker (id : Int) (patch : MarkerPatch)
deriving DecidableEq

/-- The marker endpoints of the catalog: the answer to
`GET /songs/{id}/marker` (a list of marker values) and to
`PATCH /songs/{id}/marker`, `Except.error status` when the response is not
`ok`. -/
structure MarkerApi where
  getMarker : Int → Except Nat (List ℚ)
  editSongMarker : Int → MarkerPatch → Except Nat Unit

/-- A `.marker` child of `#seekbar`: `key` tells the nodes apart, `left` is the
number in its style `left: {marker}%`. -/
structure MarkerNode where
  key : Nat
  left : ℚ
deriving DecidableEq

/-- The `.marker` children of `#seekbar`, in document order, and the key the
next clone of the marker template gets. -/
structure SeekbarMarkers where
  nextKey : Nat
  nodes : List MarkerNode
deriving DecidableEq

/-- What `SongManager.getCurrentSong()` returns while a method of a song runs:
that very song object, another song object, or `null`. -/
inductive CurrentSong where
  | this
  | other (song : Song)
  | null
deriving DecidableEq

/-- The timer `timeout` of `uploadMarkerDelayedAction`, while pending: the time
it is due and the message it will show. -/
structure PopupTimer where
  due : Int
  message : String
deriving DecidableEq

namespace SeekbarManager

/-- The method `addMarkerToSeekbar(marker)`: the new children and the node
returned. -/
def addMarkerToSeekbar (m : SeekbarMarkers) (marker : ℚ) : SeekbarMarkers × MarkerNode :=
  ({ nextKey := m.nextKey + 1, nodes := m.nodes ++ [⟨m.nextKey, marker⟩] },
    ⟨m.nextKey, marker⟩)

/-- The method `clearSeekbarMarker`. -/
def clearSeekbarMarker (m : SeekbarMarkers) : SeekbarMarkers :=
  { m with nodes := [] }

/-- The call `markerNode.remove()`. -/
def removeMarkerNode (m : SeekbarMarkers) (node : MarkerNode) : SeekbarMarkers :=
  { m with nodes := m.nodes.filter (fun n => n.key != node.key) }

/-- The method `loadMarkers`, given the song `SongManager.getCurrentSong()`
returns: reading the marker of `null` or iterating an `undefined` marker
throws, after the seekbar was cleared. -/
def loadMarkers (m : SeekbarMarkers) (current : Option Song) : Completion SeekbarMarkers :=
  let m := clearSeekbarMarker m
  match current with
  | none => .threw m
  | some song =>
    match song.marker with
    | none => .threw m
    | some marker => .normal (marker.foldl (fun m x => (addMarkerToSeekbar m x).1) m)

end SeekbarManager

/-- The outcome of `Song.loadMarker`: the song, the seekbar markers, the
requests sent, and how the promise settled (`none` when it resolved, the
status when the request was rejected, `some 0` standing for a thrown
`TypeError`). -/
structure MarkerLoad where
  song : Song
  markers : SeekbarMarkers
  requests : List MarkerRequest
  rejected : Option Nat
deriving DecidableEq

namespace Song

/-- The method `getMarker`. -/
def getMarker (song : Song) : Option (List ℚ) := song.marker

/-- The method `setMarker(marker)`. -/
def setMarker (song : Song) (marker : List ℚ) : Song := { song with marker := some marker }

/-- The song object `SongManager.getCurrentSong()` yields, given the receiver. -/
def resolveCurrent (this : Song) : CurrentSong → Option Song
  | .this => some this
  | .other song => some song
  | .null => none

/-- The method `loadMarker`. An array, empty or not, is truthy; only the
`undefined` marker leads to a request. -/
def loadMarker (this : Song) (api : MarkerApi) (current : CurrentSong) (m : SeekbarMarkers) :
    MarkerLoad :=
  match this.marker with
  | some _ =>
    match SeekbarManager.loadMarkers m (this.resolveCurrent current) with
    | .normal m => ⟨this, m, [], none⟩
    | .threw m => ⟨this, m, [], some 0⟩
  | none =>
    match api.getMarker this.id with
    | .error status => ⟨this, m, [.getMarker this.id], some status⟩
    | .ok marker =>
      let this := this.setMarker marker
      match SeekbarManager.loadMarkers m (this.resolveCurrent current) with
      | .normal m => ⟨this, m, [.getMarker this.id], none⟩
      | .threw m => ⟨this, m, [.getMarker this.id], some 0⟩

/-- The method `upload(marker)`. -/
def upload (this : Song) (api : MarkerApi) (marker : MarkerPatch) :
    MarkerRequest × Except Nat Unit :=
  (.editSongMarker this.id marker, api.editSongMarker this.id marker)

end Song

/-- The outcome of `uploadMarkerDelayedAction` once its promise has settled:
the song, the popup, the success notice if its timer is still pending, the
request sent, whether the promise was rejected, and the texts `showPopup` was
called with from the call until then, in order. -/
structure MarkerUpload where
  song : Song
  popup : PopupManager
  pendingPopup : Option PopupTimer
  requests : List MarkerRequest
  rejected : Bool
  notices : List String
deriving DecidableEq

namespace Song

/-- The constant `uploadTime` of `uploadMarkerDelayedAction`. -/
def uploadTime : Int := 20

/-- The method `uploadMarkerDelayedAction(action, popupMessage, marker)` called
at time `now`, the upload settling `latency` milliseconds later. The timer
armed before the upload shows `popupMessage` once `uploadTime` has passed, so
before the upload settles when `uploadTime ≤ latency`; `clearTimeout` in the
`catch` handler cancels it only if it is still pending then. An `action` that
throws (`none`) is caught like a failed upload. -/
def uploadMarkerDelayedAction (this : Song) (api : MarkerApi) (popup : PopupManager)
    (now latency : Int) (action : Song → Option Song) (popupMessage : String)
    (marker : MarkerPatch) : MarkerUpload :=
  let fired := decide (uploadTime ≤ latency)
  let popup :=
    if fired then popup.showPopup popupMessage PopupManager.defaultDuration else popup
  let shown : List String := if fired then [popupMessage] else []
  let timeout : Option PopupTimer :=
    if fired then none else some ⟨now + uploadTime, popupMessage⟩
  let r := this.upload api marker
  let failed : MarkerUpload :=
    { song := this
      popup := popup.showPopup "Failed" PopupManager.defaultDuration
      pendingPopup := none
      requests := [r.1]
      rejected := true
      notices := shown ++ ["Failed"] }
  match r.2 with
  | .error _ => failed
  | .ok _ =>
    match action this with
    | none => failed
    | some this =>
      { song := this, popup := popup, pendingPopup := timeout, requests := [r.1],
        rejected := false, notices := shown }

/-- The method `addMarker(marker)`: the action pushes onto `this.marker`, which
throws while the marker is `undefined`. -/
def addMarker (this : Song) (api : MarkerApi) (popup : PopupManager) (now latency : Int)
    (marker : ℚ) : MarkerUpload :=
  this.uploadMarkerDelayedAction api popup now latency
    (fun song => song.marker.map (fun l => { song with marker := some (l ++ [marker]) }))
    "Marked" (.add marker)

/-- The method `clearMarker`. -/
def clearMarker (this : Song) (api : MarkerApi) (popup : PopupManager) (now latency : Int) :
    MarkerUpload :=
  this.uploadMarkerDelayedAction api popup now latency
    (fun song => some { song with marker := some [] }) "Cleared" .clear

end Song

/-- The outcome of `SeekbarManager.addMarker` once the upload has settled: the
current song, the seekbar markers, the popup, the success notice if its timer
is still pending, the requests sent, and the texts `showPopup` was called with
from the call until then, in order. -/
structure MarkerAdd where
  song : Option Song
  markers : SeekbarMarkers
  popup : PopupManager
  pendingPopup : Option PopupTimer
  requests : List MarkerRequest
  notices : List String
deriving DecidableEq

/-- The method `addMarker` of `SeekbarManager`, called at time `now` with the
current song `song`, the upload settling `latency` milliseconds later. -/
def SeekbarManager.addMarker (am : AudioManager) (song : Option Song) (m : SeekbarMarkers)
    (popup : PopupManager) (api : MarkerApi) (now latency : Int) : MarkerAdd :=
  let marker := am.getCurrentTime / am.getDuration * 100
  match song with
  | none => ⟨none, m, popup, none, [], []⟩
  | some song =>
    let added := SeekbarManager.addMarkerToSeekbar m marker
    let r := song.addMarker api popup now latency marker
    let m := if r.rejected then SeekbarManager.removeMarkerNode added.1 added.2 else added.1
    ⟨some r.song, m, r.popup, r.pendingPopup, r.requests, r.notices⟩

/-! ## Catalog API middlewares

The middlewares of `server/src/api/songs/middlewares.js`. A middleware reads
and extends the request, may send a response, and hands the request on by
calling `next`; what it does besides changing `req` and `res` is recorded as a
list of effects, in order. The configuration flag, the store lookup `findSong`
and the third-party YouTube libraries are parameters. -/

/-- White space and line terminators, which `parseInt` skips at the start. -/
def isWhiteSpace (c : Char) : Bool :=
  let n := c.toNat
  n == 9 || n == 10 || n == 11 || n == 12 || n == 13 || n == 32 || n == 160 ||
  n == 0x1680 || (0x2000 ≤ n && n ≤ 0x200A) || n == 0x2028 || n == 0x2029 ||
  n == 0x202F || n == 0x205F || n == 0x3000 || n == 0xFEFF

/-- The value of a character as a digit in the given radix, if it is one. -/
def digitValue (radix : Nat) (c : Char) : Option Nat :=
  let n := c.toNat
  let v : Option Nat :=
    if 48 ≤ n ∧ n ≤ 57 then some (n - 48)
    else if 97 ≤ n ∧ n ≤ 122 then some (n - 87)
    else if 65 ≤ n ∧ n ≤ 90 then some (n - 55)
    else none
  v.filter (fun d => d < radix)

/-- The values of the longest run of digits at the start of the characters. -/
def takeDigits (radix : Nat) : List Char → List Nat
  | [] => []
  | c :: cs =>
    match digitValue radix c with
    | some d => d :: takeDigits radix cs
    | none => []

/-- Reading a leading sign: whether it is a minus, and the characters left. -/
def stripSign : List Char → Bool × List Char
  | [] => (false, [])
  | c :: cs =>
    if c = '-' then (true, cs) else if c = '+' then (false, cs) else (false, c :: cs)

/-- Reading a leading `0x` or `0X`: the radix, and the characters left. -/
def stripHexPrefix : List Char → Nat × List Char
  | c :: x :: cs =>
    if c = '0' ∧ (x = 'x' ∨ x = 'X') then (16, cs) else (10, c :: x :: cs)
  | cs => (10, cs)

/-- The global function `parseInt` applied to a string without a radix: white
space is skipped, a sign is read, a `0x` start switches to radix 16, and the
longest run of digits is read; `none` stands for `NaN`. The result is the
Number value of the integer read: the nearest double, or an infinity. (Past
the twentieth significant decimal digit an engine may read the digits as
zeros before rounding; the exact integer is rounded here.) -/
def parseInt (s : String) : Option IntegralNumber :=
  let signed := stripSign (s.toList.dropWhile isWhiteSpace)
  let based := stripHexPrefix signed.2
  match takeDigits based.1 based.2 with
  | [] => none
  | d :: ds =>
    let n : Int := ((d :: ds).foldl (fun a x => a * based.1 + x) 0 : Nat)
    some (numberOfInt (if signed.1 then -n else n))

/-- A song as the store holds it. -/
structure SongRecord where
  id : Int
  title : String
  artist : String
  marker : List ℚ
deriving DecidableEq

/-- A value handed back by a YouTube library: search results, or the promise
or stream object a call returned. It is told apart by a description only. -/
structure AdapterValue where
  description : String
deriving DecidableEq

/-- The third-party libraries behind `integrations/youtube_music.js`: `ytsr`
(awaited, so it resolves or rejects), `ytpl`, `ytdl.getInfo`, and `ytdl`
piped into a file. -/
structure YouTube where
  ytsr : String → Nat → Except String AdapterValue
  ytpl : String → AdapterValue
  getInfo : String → AdapterValue
  ytdlPipe : String → AdapterValue

/-- The function `search(query)` of the integration. -/
def search (yt : YouTube) (query : String) : Except String AdapterValue := yt.ytsr query 1

/-- The function `getPlaylist(url)` of the integration. -/
def getPlaylist (yt : YouTube) (url : String) : AdapterValue := yt.ytpl url

/-- The function `getSong(url)` of the integration, imported as `getYSong`. -/
def getYSong (yt : YouTube) (url : String) : AdapterValue := yt.getInfo url

/-- The function `downloadSong(url)` of the integration. -/
def downloadSong (yt : YouTube) (url : String) : AdapterValue := yt.ytdlPipe url

/-- The object `req.params`. -/
structure Params where
  id : String
deriving DecidableEq

/-- The object `req.query`; an absent parameter is `none`. -/
structure Query where
  query : Option String
  url : Option String
deriving DecidableEq

/-- The request object. The properties the middlewares add are `none` while
unset; `song` is `some none` when it holds `null`. -/
structure Req where
  params : Params
  query : Query
  id : Option IntegralNumber
  song : Option (Option SongRecord)
  results : Option AdapterValue
deriving DecidableEq

/-- The response object: the message of the JSON body sent, if any. -/
structure Res where
  json : Option String
deriving DecidableEq

/-- What a middleware does besides changing `req` and `res`. An error is given
by its message, or by the value a lookup was rejected with. -/
inductive Effect where
  | next (error : Option String)
  | findSong (id : IntegralNumber)
  | search (query : String)
  | getPlaylist (url : String)
  | getYSong (url : String)
  | downloadSong (url : String)
deriving DecidableEq

/-- The outcome of a middleware: request, response, its effects in order, and
for an `async` middleware the reason its promise was rejected with, if it was. -/
structure Handled where
  req : Req
  res : Res
  effects : List Effect
  rejected : Option String
deriving DecidableEq

/-- The calls of `next` among the effects, in order. -/
def nextCalls (effects : List Effect) : List (Option String) :=
  effects.filterMap (fun e => match e with | .next error => some error | _ => none)

/-- Truthiness of a query parameter: absent and empty are falsy. -/
def paramTruthy : Option String → Bool
  | none => false
  | some s => s != ""

/-- The middleware `checkDemoMode`; `demoMode` is the truthiness of
`config.DEMO_MODE`. -/
def checkDemoMode (demoMode : Bool) (req : Req) (res : Res) : Handled :=
  if demoMode then
    ⟨req, { res with json := some "This API is not available in demo mode" }, [], none⟩
  else ⟨req, res, [.next none], none⟩

/-- The middleware `getId`. -/
def getId (req : Req) (res : Res) : Handled :=
  match parseInt req.params.id with
  | none => ⟨req, res, [.next (some "Invalid song id")], none⟩
  | some id => ⟨{ req with id := some id }, res, [.next none], none⟩

/-- The middleware `getSong`; `findSong` is the lookup of the store, which
resolves with the song or `null`, or is rejected. The test `!req.id` holds for
an unset id and for zero. -/
def getSong (findSong : IntegralNumber → Except String (Option SongRecord)) (req : Req)
    (res : Res) : Handled :=
  match req.id with
  | none => ⟨req, res, [.next (some "No id")], none⟩
  | some id =>
    if id = 0 then ⟨req, res, [.next (some "No id")], none⟩
    else
      match findSong id with
      | .error err => ⟨req, res, [.findSong id, .next (some err)], none⟩
      | .ok none =>
        ⟨{ req with song := some none }, res,
          [.findSong id, .next (some "Song not found")], none⟩
      | .ok (some song) =>
        ⟨{ req with song := some (some song) }, res, [.findSong id, .next none], none⟩

/-- The middleware `searchYTSong`. -/
def searchYTSong (yt : YouTube) (req : Req) (res : Res) : Handled :=
  if paramTruthy req.query.query then
    let query := req.query.query.getD ""
    match search yt query with
    | .error reason => ⟨req, res, [.search query], some reason⟩
    | .ok result => ⟨{ req with results := some result }, res, [.search query], none⟩
  else ⟨req, res, [.next (some "Invalid query")], none⟩

/-- The middleware `getYTPlaylist`. -/
def getYTPlaylist (yt : YouTube) (req : Req) (res : Res) : Handled :=
  if paramTruthy req.query.url then
    let url := req.query.url.getD ""
    ⟨{ req with results := some (getPlaylist yt url) }, res, [.getPlaylist url], none⟩
  else ⟨req, res, [.next (some "No url")], none⟩

/-- The middleware `getYTSong`. -/
def getYTSong (yt : YouTube) (req : Req) (res : Res) : Handled :=
  if paramTruthy req.query.url then
    let url := req.query.url.getD ""
    ⟨{ req with results := some (getYSong yt url) }, res, [.getYSong url], none⟩
  else ⟨req, res, [.next (some "No url")], none⟩

/-- The middleware `downloadYTSong`. -/
def downloadYTSong (yt : YouTube) (req : Req) (res : Res) : Handled :=
  if paramTruthy req.query.url then
    let url := req.query.url.getD ""
    ⟨{ req with results := some (downloadSong yt url) }, res, [.downloadSong url], none⟩
  else ⟨req, res, [.next (some "No url")], none⟩

/-- A request in flight through a route: request, response and the store. -/
structure Ctx where
  req : Req
  res : Res
  store : List SongRecord
deriving DecidableEq

/-- A handler of a route: the context it leaves and its first call of `next`,
if it made one (`some none` for a call without an error). -/
abbrev Handler := Ctx → Ctx × Option (Option String)

/-- A middleware, which does not touch the store, as a handler of a route. -/
def asHandler (middleware : Req → Res → Handled) : Handler :=
  fun c =>
    let h := middleware c.req c.res
    ({ c with req := h.req, res := h.res }, (nextCalls h.effects).head?)

/-- The handlers of a route run in order: the following one runs when a
handler calls `next` without an error; with an error the remaining handlers
are skipped and the error message is sent; without a call nothing more runs. -/
def runRoute : List Handler → Ctx → Ctx
  | [], c => c
  | handler :: rest, c =>
    match handler c with
    | (c, some none) => runRoute rest c
    | (c, some (some error)) => { c with res := { c.res with json := some error } }
    | (c, none) => c

/-! ## Invariants and sample states -/

/-- The visible list mirrors the cache: the item ids are the cache keys, in
order, and no key occurs twice. -/
def SongManager.Mirrors (sm : SongManager) : Prop :=
  sm.songList.map (·.id) = sm.songs.map (·.1) ∧ (sm.songs.map (·.1)).Nodup

/-- A song with id 7, as first cached. -/
def songA : Song :=
  { title := "A", artist := "x", image := "assets/placeholder.png", file := "/songs/7/file",
    modified := 10, marker := none, id := 7 }

/-- A later record of the song with id 7, with another title. -/
def songB : Song := { songA with title := "B", modified := 20 }

/-- The state after the initializer and `add(songA)`. -/
def stateWithA : SongManager := (SongManager.init LocalStorage.empty).add songA

/-- Successive calls of `getNewSongs`, each settled before the next is made and
with no other method run in between; the k-th call is answered by the k-th
catalog of the list. -/
def SongManager.getNewSongsSeq : List ApiManager → SongManager → SongManager
  | [], sm => sm
  | api :: rest, sm => getNewSongsSeq rest (SongManager.getNewSongs api sm).state

/-- The id-ordered pages of a catalog reach the cursor: the last id of every
page served for an offset is at least that offset minus one. -/
def ApiManager.PagesReachCursor (api : ApiManager) : Prop :=
  ∀ offset page last, api.songsOffset offset false = .ok page →
    page.getLast? = some last → offset ≤ last.id + 1

/-- A song record with the given id and modified time. -/
def sampleJSON (id modified : Int) : SongJSON :=
  { title := "t", artist := "a", image := none, modified := modified, id := id }

/-- A catalog that answers every page request with the single id 3, whatever
the offset. -/
def apiPageThree : ApiManager :=
  { songApi := "/api/v1/songs"
    songsOffset := fun _ _ => .ok [sampleJSON 3 0]
    songsMultiple := fun _ => .ok [sampleJSON 3 0]
    songsQuery := fun _ _ _ => .ok [] }

/-- A catalog whose pages are empty. -/
def apiEmpty : ApiManager :=
  { songApi := "/api/v1/songs"
    songsOffset := fun _ _ => .ok []
    songsMultiple := fun _ => .ok []
    songsQuery := fun _ _ _ => .ok [] }

/-- A catalog whose id-ordered pages start at the requested offset: the page
for offset `n` holds the ids `n` and `n + 1`. -/
def apiFromCursor : ApiManager :=
  { songApi := "/api/v1/songs"
    songsOffset := fun offset _ => .ok [sampleJSON offset 0, sampleJSON (offset + 1) 0]
    songsMultiple := fun ids => .ok (ids.map (fun id => sampleJSON id 0))
    songsQuery := fun _ _ _ => .ok [] }

/-- The initial state moved to cursor 10 in sort-by-id mode. -/
def stateIdModeTen : SongManager :=
  { SongManager.init LocalStorage.empty with offset := 10, sortByModifiedDate := .bool false }

/-- The initial state (sort-by-modified-time mode) with the cursor at the
terminal sentinel. -/
def stateTerminal : SongManager :=
  { SongManager.init LocalStorage.empty with offset := -1 }

/-- A catalog serving the page `[5, 2, 9]`, whose batch fetch returns the songs
5 and 9 with modified times `t5 = 2 < t9 = 3`. -/
def apiPage529 : ApiManager :=
  { songApi := "/api/v1/songs"
    songsOffset := fun _ _ => .ok [sampleJSON 5 2, sampleJSON 2 1, sampleJSON 9 3]
    songsMultiple := fun ids =>
      .ok ([sampleJSON 5 2, sampleJSON 2 1, sampleJSON 9 3].filter (fun j => ids.contains j.id))
    songsQuery := fun _ _ _ => .ok [] }

/-- The song with id 2 and modified time `t2 = 1`, as the client builds it. -/
def song2 : Song := Song.fromJSON "/api/v1/songs" (sampleJSON 2 1)

/-- The initial state (sort-by-modified-time mode) after `add(song2)`, as the
Random play mode leaves it when the random song is song 2. -/
def stateWithSong2 : SongManager := (SongManager.init LocalStorage.empty).add song2

/-- An audio element with nothing loaded, at full volume. -/
def audioIdle : Audio :=
  { src := none, volume := 1, currentTime := 0, duration := none, paused := true }

/-- An `AudioManager` playing a track of 200 seconds at volume 50. -/
def audioManager200 : AudioManager :=
  { songAudio :=
      { src := some "/api/v1/songs/7/file", volume := 1 / 2, currentTime := 0,
        duration := some 200, paused := false }
    interactionAudio := audioIdle
    imagePaused := false
    lastInteractionAudioPlay := none }

/-- An `AudioManager` whose track lasts `2 ^ 1023` seconds, the largest power of two
among the doubles, at position 0. -/
def audioManagerLong : AudioManager :=
  { audioManager200 with
    songAudio := { audioManager200.songAudio with duration := some ((2 : ℚ) ^ (1023 : ℕ)) } }

/-- A seekbar 100 pixels wide, with no drag handled yet. -/
def seekbar100 : SeekbarManager :=
  { progressWidth := 0, currentTimeText := "0:00", durationText := "3:20", offsetWidth := 100,
    lastProgressX := 0, lastSetProgressCall := none }

/-- A hidden popup. -/
def popupHidden : PopupManager := { popupText := "", active := false, duration := 0 }

/-- The page after the key `x` is pressed at time 0 with the search closed: the
keyboard handler opens the search and seeds it. -/
def clientSeeded : Client := Client.init.keydownSeed 0 "x"

/-- The seeded page after the input is emptied at time 50 (one Backspace),
which reaches `updateSearch` through the listener of the input element. -/
def clientSeededCleared : Client := clientSeeded.inputEvent 50 ""

/-- The page after `x` is typed into the open search at time 0, `y` at time 30,
and the input is emptied at time 90, all through the listener of the input
element. -/
def clientTypedCleared : Client :=
  ((Client.init.inputEvent 0 "x").inputEvent 30 "xy").inputEvent 90 ""

/-- A visible list of three songs with the second one active, both select
methods last accepted at time 0. -/
def stateThreeSongs : SongManager :=
  { SongManager.init LocalStorage.empty with
    songList := [⟨1, "a", "x", ""⟩, ⟨2, "b", "x", ""⟩, ⟨3, "c", "x", ""⟩]
    currentSongItem := some (.child 1)
    selectNextTimeout := some 0
    selectPreviousTimeout := some 0 }

/-- Marker endpoints of a catalog that holds no markers and accepts every
edit. -/
def markerApiOk : MarkerApi :=
  { getMarker := fun _ => .ok [], editSongMarker := fun _ _ => .ok () }

/-- Marker endpoints of a catalog that rejects every request with status 500. -/
def markerApiDown : MarkerApi :=
  { getMarker := fun _ => .error 500, editSongMarker := fun _ _ => .error 500 }

/-- The song with id 7 with its marker list loaded, holding the marker 10. -/
def songMarked : Song := { songA with marker := some [10] }

/-- The seekbar showing the one marker of `songMarked`. -/
def markersOne : SeekbarMarkers := { nextKey := 1, nodes := [⟨0, 10⟩] }

/-- An `AudioManager` 50 seconds into a track of 200 seconds. -/
def audioManager50of200 : AudioManager :=
  { audioManager200 with songAudio := { audioManager200.songAudio with currentTime := 50 } }

/-- A request for the song route with the given `id` path parameter and no
query parameters. -/
def reqWithId (id : String) : Req :=
  { params := ⟨id⟩, query := ⟨none, none⟩, id := none, song := none, results := none }

/-- A request for an import route with the given `query` and `url` query
parameters. -/
def reqWithQuery (query url : Option String) : Req :=
  { params := ⟨""⟩, query := ⟨query, url⟩, id := none, song := none, results := none }

/-- A response not sent yet. -/
def resUnsent : Res := ⟨none⟩

/-- A store lookup that finds a song under the id 0 and under the id 3, and no
other. -/
def findSongSample : IntegralNumber → Except String (Option SongRecord) :=
  fun id =>
    match id with
    | .finite n => .ok (if n = 0 ∨ n = 3 then some ⟨n, "t", "a", []⟩ else none)
    | .infinity _ => .ok none

/-- A store lookup that is rejected. -/
def findSongDown : IntegralNumber → Except String (Option SongRecord) :=
  fun _ => .error "store unavailable"

/-- YouTube libraries that answer every call. -/
def youTubeUp : YouTube :=
  { ytsr := fun query _ => .ok ⟨"results for " ++ query⟩
    ytpl := fun url => ⟨"playlist of " ++ url⟩
    getInfo := fun url => ⟨"info of " ++ url⟩
    ytdlPipe := fun url => ⟨"stream of " ++ url⟩ }

/-- A handler that empties the store and sends a reply, standing for the
handler of a mutating route. -/
def wipeStore : Handler :=
  fun c => ({ c with store := [], res := { c.res with json := some "done" } }, none)

/-- The storage after the sort order is toggled once, from the default
sort-by-modified-time to sort-by-id, on a fresh page. -/
def storageSortById : LocalStorage :=
  (SongManager.toggleSortByModifiedDate apiEmpty (SongManager.init LocalStorage.empty)
    LocalStorage.empty popupHidden).2.1

/-- A search showing three results with the last one highlighted. -/
def searchThreeResults : SearchManager :=
  { SearchManager.init with
    visible := true
    searchInputValue := "t"
    results := [⟨1, "a", "x"⟩, ⟨2, "b", "x"⟩, ⟨3, "c", "x"⟩]
    currentResultItem := some (.child 2) }

/-- A visible list of three songs with the last one active and no select call
made yet. -/
def stateThreeSongsLast : SongManager :=
  { SongManager.init LocalStorage.empty with
    songList := [⟨1, "a", "x", ""⟩, ⟨2, "b", "x", ""⟩, ⟨3, "c", "x", ""⟩]
    currentSongItem := some (.child 2) }

/-! ## Theorems -/

/-- C1: for every current play mode `m` in `{0,1,2,3}`, `rotatePlayMode` sets the mode to
`(m+1) mod 4` (Autoplay→Random→Repeat→Once→Autoplay), writes exactly that value to the
persisted `"playMode"` entry and leaves every other entry alone; four rotations return
to `m`. -/
theorem rotatePlayMode_cycle (m : Int) (h0 : 0 ≤ m) (h3 : m ≤ 3)
    (ls : LocalStorage) (popup : PopupManager) :
    (PlayModeManager.rotatePlayMode ⟨m⟩ ls popup).1.currentPlayMode = (m + 1) % 4 ∧
    (PlayModeManager.rotatePlayMode ⟨m⟩ ls popup).2.1.getItem "playMode"
      = some (Stored.num (((m + 1) % 4 : Int) : ℚ)) ∧
    (∀ k, k ≠ "playMode" →
      (PlayModeManager.rotatePlayMode ⟨m⟩ ls popup).2.1.getItem k = ls.getItem k) ∧
    (PlayModeManager.rotatePlayMode ⟨0⟩ ls popup).1.currentPlayMode = 1 ∧
    (PlayModeManager.rotatePlayMode ⟨1⟩ ls popup).1.currentPlayMode = 2 ∧
    (PlayModeManager.rotatePlayMode ⟨2⟩ ls popup).1.currentPlayMode = 3 ∧
    (PlayModeManager.rotatePlayMode ⟨3⟩ ls popup).1.currentPlayMode = 0 ∧
    (PlayModeManager.rotateTimes 4 (⟨m⟩, ls, popup)).1.currentPlayMode = m := by
  have hm : m = 0 ∨ m = 1 ∨ m = 2 ∨ m = 3 := by omega
  refine ⟨?_, ?_, ?_, rfl, rfl, rfl, rfl, ?_⟩
  · rcases hm with h | h | h | h <;> subst h <;> rfl
  · rcases hm with h | h | h | h <;> subst h <;>
      simp [PlayModeManager.rotatePlayMode, LocalStorage.setItem, LocalStorage.getItem,
        PlayModeManager.playModes] <;> rfl
  · intro k hk
    simp [PlayModeManager.rotatePlayMode, LocalStorage.setItem, LocalStorage.getItem, hk]
  · rcases hm with h | h | h | h <;> subst h <;> rfl

/-- Witness for C1 at `m = 3` (Once), which wraps around to Autoplay. -/
theorem rotatePlayMode_cycle_witness :
    (PlayModeManager.rotatePlayMode ⟨3⟩ LocalStorage.empty ⟨"", false, 0⟩).1.currentPlayMode
      = (3 + 1) % 4 :=
  (rotatePlayMode_cycle 3 (by decide) (by decide) LocalStorage.empty ⟨"", false, 0⟩).1

/-! ### SongManager.add -/

theorem has_eq_true_iff (sm : SongManager) (id : Int) :
    sm.has id = true ↔ id ∈ sm.songs.map (·.1) := by
  simp only [SongManager.has, List.any_eq_true, List.mem_map]
  constructor
  · rintro ⟨e, he, h⟩
    exact ⟨e, he, by simpa using h⟩
  · rintro ⟨e, he, h⟩
    exact ⟨e, he, by simpa using h⟩

theorem lookup_append_fresh (songs : List (Int × Song)) (id : Int) (song : Song)
    (h : id ∉ songs.map (·.1)) : (songs ++ [(id, song)]).lookup id = some song := by
  induction songs with
  | nil => simp [List.lookup]
  | cons e rest ih =>
    obtain ⟨k, v⟩ := e
    simp only [List.map_cons, List.mem_cons, not_or] at h
    have hk : (id == k) = false := by simpa using h.1
    simp only [List.cons_append, List.lookup_cons, hk]
    exact ih h.2

theorem add_of_has (sm : SongManager) (song : Song) (h : sm.has song.id = true) :
    sm.add song = sm := by
  simp [SongManager.add, h]

theorem add_of_not_has (sm : SongManager) (song : Song) (h : sm.has song.id = false) :
    sm.add song =
      { sm with
        songs := sm.songs ++ [(song.id, song)]
        songList := sm.songList ++ [SongManager.createSongItem song] } := by
  have h' : sm.songs.any (fun e => e.1 == song.id) = false := h
  simp [SongManager.add, h, SongManager.addSongToList, SongManager.mapSet, h']

theorem has_add (sm : SongManager) (song : Song) : (sm.add song).has song.id = true := by
  cases h : sm.has song.id with
  | true => rw [add_of_has sm song h]; exact h
  | false =>
    rw [add_of_not_has sm song h]
    simp [SongManager.has]

theorem mirrors_init (ls : LocalStorage) : (SongManager.init ls).Mirrors := by
  simp [SongManager.Mirrors, SongManager.init]

theorem mirrors_add (sm : SongManager) (song : Song) (h : sm.Mirrors) :
    (sm.add song).Mirrors := by
  cases hh : sm.has song.id with
  | true => rw [add_of_has sm song hh]; exact h
  | false =>
    rw [add_of_not_has sm song hh]
    have hn : song.id ∉ sm.songs.map (·.1) := by
      rw [← has_eq_true_iff]; simp [hh]
    obtain ⟨h1, h2⟩ := h
    refine ⟨?_, ?_⟩
    · simp [h1, SongManager.createSongItem]
    · simp only [List.map_append, List.map_cons, List.map_nil]
      rw [List.nodup_append]
      refine ⟨h2, List.nodup_singleton _, ?_⟩
      intro a ha hb
      simp only [List.mem_singleton] at hb
      subst hb
      exact hn ha

/-- C2 (as stated, refuted): with the song of id 7 already cached as `songA`, `add(songB)`
followed by `add(songB)` for the same id leaves `songA` cached, not `songB`. -/
theorem add_cached_song_not_replaced :
    songB.id = songA.id ∧
    ((stateWithA.add songB).add songB).get songB.id = some songA ∧
    ((stateWithA.add songB).add songB).get songB.id ≠ some songB := by
  decide

/-- C2 (amended): `add(s)` followed by `add(s')` with the same id leaves the state equal to
the state after the first `add`: the cache size does not grow, the song cached for the id
is the one cached after the first `add` (`s` when the id was not cached before, the song
cached before otherwise), and when the visible list mirrors the cache it contains exactly
one item for the id. -/
theorem add_idempotent (sm : SongManager) (s s' : Song) (hid : s'.id = s.id) :
    (sm.add s).add s' = sm.add s ∧
    ((sm.add s).add s').songs.length = (sm.add s).songs.length ∧
    ((sm.add s).add s').get s.id = (sm.add s).get s.id ∧
    (sm.has s.id = false → ((sm.add s).add s').get s.id = some s) ∧
    (sm.has s.id = true → ((sm.add s).add s').get s.id = sm.get s.id) ∧
    (sm.Mirrors → (((sm.add s).add s').songList.map (·.id)).count s.id = 1) := by
  have hsame : (sm.add s).add s' = sm.add s := by
    apply add_of_has
    rw [hid]
    exact has_add sm s
  rw [hsame]
  refine ⟨rfl, rfl, rfl, ?_, ?_, ?_⟩
  · intro h
    rw [add_of_not_has sm s h]
    have hn : s.id ∉ sm.songs.map (·.1) := by
      rw [← has_eq_true_iff]; simp [h]
    exact lookup_append_fresh sm.songs s.id s hn
  · intro h
    rw [add_of_has sm s h]
  · intro h
    obtain ⟨h1, h2⟩ := mirrors_add sm s h
    rw [h1]
    exact List.count_eq_one_of_mem h2 ((has_eq_true_iff _ _).mp (has_add sm s))

/-- Witness for C2: a fresh id, added twice to the mirrored state holding `songA`. -/
theorem add_idempotent_witness :
    ((stateWithA.add { songB with id := 8 }).add { songA with id := 8 }
        = stateWithA.add { songB with id := 8 }) ∧
    (((stateWithA.add { songB with id := 8 }).add { songA with id := 8 }).songList.map
        (·.id)).count 8 = 1 :=
  ⟨(add_idempotent stateWithA { songB with id := 8 } { songA with id := 8 } rfl).1,
   (add_idempotent stateWithA { songB with id := 8 } { songA with id := 8 } rfl).2.2.2.2.2
     (mirrors_add _ _ (mirrors_init _))⟩

/-! ### SongManager.getNewSongs -/

theorem add_offset (sm : SongManager) (song : Song) :
    (sm.add song).offset = sm.offset ∧
    (sm.add song).sortByModifiedDate = sm.sortByModifiedDate := by
  cases h : sm.has song.id with
  | true => rw [add_of_has sm song h]; exact ⟨rfl, rfl⟩
  | false => rw [add_of_not_has sm song h]; exact ⟨rfl, rfl⟩

theorem foldl_add_offset (songs : List Song) (sm : SongManager) :
    (songs.foldl SongManager.add sm).offset = sm.offset ∧
    (songs.foldl SongManager.add sm).sortByModifiedDate = sm.sortByModifiedDate := by
  induction songs generalizing sm with
  | nil => exact ⟨rfl, rfl⟩
  | cons s rest ih =>
    simp only [List.foldl_cons]
    rw [(ih (sm.add s)).1, (ih (sm.add s)).2]
    exact add_offset sm s

theorem getSongs_offset (api : ApiManager) (sm : SongManager) (ids : List Int) :
    (SongManager.getSongs api sm ids).state.offset = sm.offset ∧
    (SongManager.getSongs api sm ids).state.sortByModifiedDate = sm.sortByModifiedDate := by
  unfold SongManager.getSongs
  simp only
  split
  · exact ⟨rfl, rfl⟩
  · split
    · exact ⟨rfl, rfl⟩
    · exact foldl_add_offset _ sm

theorem getNewSongs_terminal_eq (api : ApiManager) (sm : SongManager) (h : sm.offset = -1) :
    SongManager.getNewSongs api sm = ⟨sm, [], .ok none⟩ := by
  simp [SongManager.getNewSongs, h]

theorem getNewSongs_error_eq (api : ApiManager) (sm : SongManager) (h : sm.offset ≠ -1)
    (status : Nat)
    (hresp : api.songsOffset sm.offset sm.sortByModifiedDate.truthy = .error status) :
    SongManager.getNewSongs api sm =
      ⟨sm, [Request.songsOffset sm.offset sm.sortByModifiedDate.truthy], .error status⟩ := by
  simp [SongManager.getNewSongs, h, ApiManager.getSongIds, hresp, Except.map]

theorem getNewSongs_empty_eq (api : ApiManager) (sm : SongManager) (h : sm.offset ≠ -1)
    (hresp : api.songsOffset sm.offset sm.sortByModifiedDate.truthy = .ok []) :
    SongManager.getNewSongs api sm =
      ⟨{ sm with offset := -1 }, [Request.songsOffset sm.offset sm.sortByModifiedDate.truthy],
        .ok none⟩ := by
  simp [SongManager.getNewSongs, h, ApiManager.getSongIds, hresp, Except.map]

theorem getNewSongs_page_eq (api : ApiManager) (sm : SongManager) (h : sm.offset ≠ -1)
    (page : List SongJSON) (hne : page ≠ [])
    (hresp : api.songsOffset sm.offset sm.sortByModifiedDate.truthy = .ok page) :
    SongManager.getNewSongs api sm =
      ⟨(SongManager.getSongs api
          { sm with
            offset := if sm.sortByModifiedDate.truthy then sm.offset + 1
                      else (page.getLast hne).id + 1 }
          (page.map (·.id))).state,
        [Request.songsOffset sm.offset sm.sortByModifiedDate.truthy] ++
          (SongManager.getSongs api
            { sm with
              offset := if sm.sortByModifiedDate.truthy then sm.offset + 1
                        else (page.getLast hne).id + 1 }
            (page.map (·.id))).requests,
        (SongManager.getSongs api
          { sm with
            offset := if sm.sortByModifiedDate.truthy then sm.offset + 1
                      else (page.getLast hne).id + 1 }
          (page.map (·.id))).result.map some⟩ := by
  simp [SongManager.getNewSongs, h, ApiManager.getSongIds, hresp, Except.map, hne,
    List.getLast_map]

theorem getNewSongs_step (api : ApiManager) (sm : SongManager)
    (h : sm.sortByModifiedDate.truthy = true ∨ api.PagesReachCursor) :
    (SongManager.getNewSongs api sm).state.sortByModifiedDate = sm.sortByModifiedDate ∧
    ((SongManager.getNewSongs api sm).state.offset = -1 ∨
      sm.offset ≤ (SongManager.getNewSongs api sm).state.offset) := by
  by_cases h1 : sm.offset = -1
  · rw [getNewSongs_terminal_eq api sm h1]
    exact ⟨rfl, Or.inl h1⟩
  · cases hresp : api.songsOffset sm.offset sm.sortByModifiedDate.truthy with
    | error status =>
      rw [getNewSongs_error_eq api sm h1 status hresp]
      exact ⟨rfl, Or.inr (le_refl _)⟩
    | ok page =>
      by_cases hne : page = []
      · subst hne
        rw [getNewSongs_empty_eq api sm h1 hresp]
        exact ⟨rfl, Or.inl rfl⟩
      · rw [getNewSongs_page_eq api sm h1 page hne hresp]
        refine ⟨(getSongs_offset _ _ _).2, Or.inr ?_⟩
        show sm.offset ≤ (SongManager.getSongs api _ _).state.offset
        rw [(getSongs_offset _ _ _).1]
        cases ht : sm.sortByModifiedDate.truthy with
        | true => simp
        | false =>
          simp only [Bool.false_eq_true, if_false]
          rcases h with h | h
          · rw [ht] at h; exact absurd h (by decide)
          · rw [ht] at hresp
            exact h sm.offset page (page.getLast hne) hresp (List.getLast?_eq_getLast _ hne)

theorem getNewSongsSeq_terminal (apis : List ApiManager) (sm : SongManager)
    (h : sm.offset = -1) : SongManager.getNewSongsSeq apis sm = sm := by
  induction apis with
  | nil => rfl
  | cons api rest ih =>
    simp only [SongManager.getNewSongsSeq]
    rw [getNewSongs_terminal_eq api sm h]
    exact ih

/-- C3: with the cursor at the terminal sentinel `-1`, `getNewSongs` sends no request and
leaves the whole state (cursor, cache, visible list) unchanged; and when the page request
it sends is answered by an empty id list, the cursor becomes `-1`, the cache and the
visible list staying as they were. -/
theorem getNewSongs_terminal (api : ApiManager) (sm : SongManager) :
    (sm.offset = -1 →
      (SongManager.getNewSongs api sm).requests = [] ∧
      (SongManager.getNewSongs api sm).state = sm) ∧
    (sm.offset ≠ -1 → ∀ page,
      api.songsOffset sm.offset sm.sortByModifiedDate.truthy = .ok page →
      page.map (·.id) = [] →
      (SongManager.getNewSongs api sm).requests
        = [Request.songsOffset sm.offset sm.sortByModifiedDate.truthy] ∧
      (SongManager.getNewSongs api sm).state.offset = -1 ∧
      (SongManager.getNewSongs api sm).state.songs = sm.songs ∧
      (SongManager.getNewSongs api sm).state.songList = sm.songList) := by
  constructor
  · intro h
    rw [getNewSongs_terminal_eq api sm h]
    exact ⟨rfl, rfl⟩
  · intro h page hresp hpage
    have hp : page = [] := by simpa using hpage
    subst hp
    rw [getNewSongs_empty_eq api sm h hresp]
    exact ⟨rfl, rfl, rfl, rfl⟩

/-- Witness for C3: a terminal cursor against a catalog that would serve a page, and the
initial cursor against a catalog whose pages are empty. -/
theorem getNewSongs_terminal_witness :
    (SongManager.getNewSongs apiPageThree stateTerminal).requests = [] ∧
    (SongManager.getNewSongs apiEmpty (SongManager.init LocalStorage.empty)).state.offset = -1 :=
  ⟨((getNewSongs_terminal apiPageThree stateTerminal).1 rfl).1,
   ((getNewSongs_terminal apiEmpty (SongManager.init LocalStorage.empty)).2
      (by decide) [] rfl rfl).2.1⟩

/-- C4 (as stated, refuted): in sort-by-id mode with the cursor at 10, a non-empty page
whose only id is 3 moves the cursor back to 4. -/
theorem getNewSongs_cursor_decreases :
    stateIdModeTen.offset = 10 ∧
    stateIdModeTen.sortByModifiedDate.truthy = false ∧
    (apiPageThree.getSongIds 10 false).2.toOption = some [3] ∧
    (SongManager.getNewSongs apiPageThree stateIdModeTen).state.offset = 4 ∧
    (SongManager.getNewSongs apiPageThree stateIdModeTen).state.offset
      < stateIdModeTen.offset := by
  decide

/-- C4 (amended): over any run of `getNewSongs` calls with no sort-order change in between,
the cursor ends at the terminal sentinel or at a value not below the one it started from,
provided the mode is sort-by-modified-time or every page served in sort-by-id mode has a
last id of at least the requested cursor minus one; in sort-by-id mode a non-empty page
sets the cursor to its last id plus one, whatever the cursor was. -/
theorem getNewSongsSeq_cursor_monotone (apis : List ApiManager) (sm : SongManager) :
    ((sm.sortByModifiedDate.truthy = true ∨ ∀ api ∈ apis, api.PagesReachCursor) →
      (SongManager.getNewSongsSeq apis sm).offset = -1 ∨
        sm.offset ≤ (SongManager.getNewSongsSeq apis sm).offset) ∧
    (∀ (api : ApiManager) (page : List SongJSON) (hne : page ≠ []),
      sm.offset ≠ -1 → sm.sortByModifiedDate.truthy = false →
      api.songsOffset sm.offset false = .ok page →
      (SongManager.getNewSongs api sm).state.offset = (page.getLast hne).id + 1) := by
  constructor
  · intro h
    induction apis generalizing sm with
    | nil => exact Or.inr (le_refl _)
    | cons api rest ih =>
      simp only [SongManager.getNewSongsSeq]
      have hstep := getNewSongs_step api sm
        (h.imp id (fun hall => hall api (List.mem_cons_self _ _)))
      have hrest := ih (SongManager.getNewSongs api sm).state
        (by
          rw [hstep.1]
          exact h.imp id (fun hall a ha => hall a (List.mem_cons_of_mem _ ha)))
      rcases hstep.2 with h1 | h1
      · rw [getNewSongsSeq_terminal rest _ h1]
        exact Or.inl h1
      · rcases hrest with h2 | h2
        · exact Or.inl h2
        · exact Or.inr (le_trans h1 h2)
  · intro api page hne h1 ht hresp
    rw [← ht] at hresp
    rw [getNewSongs_page_eq api sm h1 page hne hresp, (getSongs_offset _ _ _).1]
    simp [ht]

theorem pagesReachCursor_apiFromCursor : apiFromCursor.PagesReachCursor := by
  intro offset page last h hl
  simp only [apiFromCursor, Except.ok.injEq] at h
  subst h
  simp only [List.getLast?_cons_cons, List.getLast?_singleton, Option.some.injEq] at hl
  subst hl
  simp only [sampleJSON]
  omega

/-- Witness for C4: two calls in sort-by-modified-time mode, the first answered by a page,
the second by an empty page; two calls in sort-by-id mode from cursor 10 against a catalog
whose pages start at the requested offset; and one call in sort-by-id mode answered by the
page `[3]`, which sets the cursor to 4. -/
theorem getNewSongsSeq_cursor_monotone_witness :
    ((SongManager.getNewSongsSeq [apiPageThree, apiEmpty]
        (SongManager.init LocalStorage.empty)).offset = -1 ∨
      (SongManager.init LocalStorage.empty).offset ≤
        (SongManager.getNewSongsSeq [apiPageThree, apiEmpty]
          (SongManager.init LocalStorage.empty)).offset) ∧
    ((SongManager.getNewSongsSeq [apiFromCursor, apiFromCursor] stateIdModeTen).offset = -1 ∨
      stateIdModeTen.offset ≤
        (SongManager.getNewSongsSeq [apiFromCursor, apiFromCursor] stateIdModeTen).offset) ∧
    (SongManager.getNewSongs apiPageThree stateIdModeTen).state.offset
      = ([sampleJSON 3 0].getLast (by decide)).id + 1 :=
  ⟨(getNewSongsSeq_cursor_monotone [apiPageThree, apiEmpty]
      (SongManager.init LocalStorage.empty)).1 (Or.inl rfl),
   (getNewSongsSeq_cursor_monotone [apiFromCursor, apiFromCursor] stateIdModeTen).1
      (Or.inr (by
        intro api hmem
        have : api = apiFromCursor := by simpa using hmem
        rw [this]
        exact pagesReachCursor_apiFromCursor)),
   (getNewSongsSeq_cursor_monotone [] stateIdModeTen).2 apiPageThree [sampleJSON 3 0]
      (by decide) (by decide) rfl rfl⟩

/-- The scenario of the first page: with an empty cache, the page `[5, 2, 9]` is returned
latest first, as `[9, 5, 2]`. -/
theorem getNewSongs_first_page_scenario :
    ∃ songs, (SongManager.getNewSongs apiPage529 (SongManager.init LocalStorage.empty)).result
        = .ok (some songs) ∧
      songs.map (·.id) = [9, 5, 2] :=
  ⟨_, rfl, rfl⟩

/-- C5 (evaluation at the failing input): in sort-by-modified-time mode with song 2 already
cached, the page `[5, 2, 9]` with `t2 < t5 < t9` is returned as `[2, 9, 5]`: the cached
song comes first and only the fetched songs are sorted. -/
theorem getNewSongs_cached_song_first :
    stateWithSong2.sortByModifiedDate.truthy = true ∧
    (apiPage529.getSongIds stateWithSong2.offset true).2.toOption = some [5, 2, 9] ∧
    ∃ songs, (SongManager.getNewSongs apiPage529 stateWithSong2).result = .ok (some songs) ∧
      songs.map (·.id) = [2, 9, 5] ∧
      songs.map (·.modified) = [1, 3, 2] :=
  ⟨rfl, rfl, _, rfl, rfl, rfl⟩

/-! ### Rounding to doubles -/

theorem roundHalfEven_cases (y : ℚ) :
    roundHalfEven y = ⌊y⌋ ∨ roundHalfEven y = ⌊y⌋ + 1 := by
  unfold roundHalfEven
  simp only
  split_ifs <;> simp

theorem roundHalfEven_floor_le (y : ℚ) : ⌊y⌋ ≤ roundHalfEven y := by
  rcases roundHalfEven_cases y with h | h <;> omega

theorem roundHalfEven_le_floor_succ (y : ℚ) : roundHalfEven y ≤ ⌊y⌋ + 1 := by
  rcases roundHalfEven_cases y with h | h <;> omega

theorem roundHalfEven_intCast (n : Int) : roundHalfEven (n : ℚ) = n := by
  unfold roundHalfEven
  simp

theorem roundHalfEven_le_add_half (y : ℚ) : (roundHalfEven y : ℚ) ≤ y + 1 / 2 := by
  unfold roundHalfEven
  simp only
  have hf := Int.floor_le y
  split_ifs with h1 h2 h3
  · linarith
  · push_cast; linarith [Int.lt_floor_add_one y]
  · linarith
  · push_cast
    have : y - ⌊y⌋ = 1 / 2 := le_antisymm (not_lt.mp h2) (not_lt.mp h1)
    linarith

theorem roundHalfEven_mono {y z : ℚ} (h : y ≤ z) : roundHalfEven y ≤ roundHalfEven z := by
  have hfl : ⌊y⌋ ≤ ⌊z⌋ := Int.floor_mono h
  rcases lt_or_eq_of_le hfl with hlt | heq
  · calc roundHalfEven y ≤ ⌊y⌋ + 1 := roundHalfEven_le_floor_succ y
      _ ≤ ⌊z⌋ := hlt
      _ ≤ roundHalfEven z := roundHalfEven_floor_le z
  · unfold roundHalfEven
    simp only
    rw [heq]
    split_ifs with h1 h2 h3 h4 h5 h6 h7 h8 <;> first | omega | (exfalso; linarith)

theorem roundHalfEven_le_of_le_int {y : ℚ} {n : Int} (h : y ≤ n) : roundHalfEven y ≤ n := by
  have := roundHalfEven_mono h
  rwa [roundHalfEven_intCast] at this

theorem roundHalfEven_ge_of_int_le {y : ℚ} {n : Int} (h : (n : ℚ) ≤ y) :
    n ≤ roundHalfEven y := by
  have := roundHalfEven_mono h
  rwa [roundHalfEven_intCast] at this

theorem ulp_pos (x : ℚ) : 0 < ulp x := by
  unfold ulp
  positivity

theorem roundDouble_zero : roundDouble 0 = 0 := by
  unfold roundDouble
  simp [roundHalfEven_intCast, roundHalfEven]

theorem abs_lt_zpow_exp (x : ℚ) :
    |x| < (2 : ℚ) ^ (max (Int.log 2 |x|) (-1022) + 1) := by
  have h := Int.lt_zpow_succ_log_self (b := 2) (by norm_num) |x|
  simp only [Nat.cast_ofNat] at h
  refine lt_of_lt_of_le h ?_
  apply zpow_le_zpow_right₀ (by norm_num)
  have := le_max_left (Int.log 2 |x|) (-1022)
  omega

theorem zpow_exp_le_abs (x : ℚ) (hx : x ≠ 0) (h : -1022 ≤ Int.log 2 |x|) :
    (2 : ℚ) ^ (max (Int.log 2 |x|) (-1022)) ≤ |x| := by
  rw [max_eq_left h]
  have := Int.zpow_log_le_self (b := 2) (r := |x|) (by norm_num) (abs_pos.mpr hx)
  simpa using this

theorem roundDouble_eq_self_of_int {x : ℚ} {m : Int} (h : x / ulp x = m) :
    roundDouble x = x := by
  unfold roundDouble
  rw [h, roundHalfEven_intCast, ← h]
  exact div_mul_cancel₀ x (ulp_pos x).ne'

/-- Every integer of magnitude below `2 ^ 53` is a double. -/
theorem roundDouble_intCast (n : Int) (h : n.natAbs < 2 ^ 53) : roundDouble (n : ℚ) = n := by
  by_cases h0 : n = 0
  · subst h0; simpa using roundDouble_zero
  have hpos : (0 : ℚ) < |(n : ℚ)| := abs_pos.mpr (by exact_mod_cast h0)
  have habs : |(n : ℚ)| = (n.natAbs : ℚ) := by
    rw [Nat.cast_natAbs, Int.cast_abs]
  have hlt : Int.log 2 |(n : ℚ)| < 53 := by
    rw [← Int.lt_zpow_iff_log_lt (by norm_num) hpos, habs]
    exact_mod_cast h
  have hge : 0 ≤ Int.log 2 |(n : ℚ)| := by
    rw [← Int.zpow_le_iff_le_log (by norm_num) hpos, habs]
    have : (1 : ℚ) ≤ (n.natAbs : ℚ) := by
      have : 1 ≤ n.natAbs := Nat.one_le_iff_ne_zero.mpr (by simpa using h0)
      exact_mod_cast this
    simpa using this
  obtain ⟨k, hk⟩ : ∃ k : ℕ, max (Int.log 2 |(n : ℚ)|) (-1022) - 52 = -(k : Int) := by
    refine ⟨(52 - Int.log 2 |(n : ℚ)|).toNat, ?_⟩
    rw [max_eq_left (by omega)]
    omega
  apply roundDouble_eq_self_of_int (m := n * 2 ^ k)
  unfold ulp
  rw [hk, zpow_neg, zpow_natCast, div_inv_eq_mul]
  push_cast
  ring

theorem roundDouble_mono {x y : ℚ} (h : x ≤ y) : roundDouble x ≤ roundDouble y := by
  have key_nonneg : ∀ z : ℚ, 0 ≤ z → 0 ≤ roundDouble z := by
    intro z hz
    unfold roundDouble
    have : (0 : Int) ≤ roundHalfEven (z / ulp z) :=
      roundHalfEven_ge_of_int_le (by simpa using div_nonneg hz (ulp_pos z).le)
    exact mul_nonneg (by exact_mod_cast this) (ulp_pos z).le
  have key_nonpos : ∀ z : ℚ, z ≤ 0 → roundDouble z ≤ 0 := by
    intro z hz
    unfold roundDouble
    have : roundHalfEven (z / ulp z) ≤ (0 : Int) :=
      roundHalfEven_le_of_le_int (by simpa using div_nonpos_of_nonpos_of_nonneg hz (ulp_pos z).le)
    exact mul_nonpos_of_nonpos_of_nonneg (by exact_mod_cast this) (ulp_pos z).le
  -- bounds of the rounded value by the powers of two around `z`
  have upper : ∀ z : ℚ, z ≠ 0 →
      |roundDouble z| ≤ (2 : ℚ) ^ (max (Int.log 2 |z|) (-1022) + 1) := by
    intro z hz
    have hlt := abs_lt_zpow_exp z
    have hu := ulp_pos z
    have hsplit : (2 : ℚ) ^ (max (Int.log 2 |z|) (-1022) + 1) = ((2 ^ 53 : Int) : ℚ) * ulp z := by
      unfold ulp
      rw [show max (Int.log 2 |z|) (-1022) + 1
        = 53 + (max (Int.log 2 |z|) (-1022) - 52) by ring, zpow_add₀ (by norm_num)]
      norm_num
    rw [hsplit]
    unfold roundDouble
    rw [abs_mul, abs_of_pos hu]
    apply mul_le_mul_of_nonneg_right _ hu.le
    have hz1 : z / ulp z ≤ ((2 ^ 53 : Int) : ℚ) := by
      rw [div_le_iff₀ hu, ← hsplit]
      exact (le_abs_self z).trans hlt.le
    have hz2 : ((-(2 ^ 53) : Int) : ℚ) ≤ z / ulp z := by
      rw [le_div_iff₀ hu]
      have : -((2 : ℚ) ^ (max (Int.log 2 |z|) (-1022) + 1)) ≤ z :=
        (neg_le_neg hlt.le).trans (neg_abs_le z)
      rw [hsplit] at this
      push_cast at this ⊢
      linarith
    have h1 := roundHalfEven_le_of_le_int hz1
    have h2 := roundHalfEven_ge_of_int_le hz2
    rw [abs_le]
    constructor
    · have : ((-(2 ^ 53) : Int) : ℚ) ≤ (roundHalfEven (z / ulp z) : ℚ) := by exact_mod_cast h2
      push_cast at this ⊢
      linarith
    · exact_mod_cast h1
  have lower_pos : ∀ z : ℚ, 0 < z → -1022 ≤ Int.log 2 |z| →
      (2 : ℚ) ^ (max (Int.log 2 |z|) (-1022)) ≤ roundDouble z := by
    intro z hz hlog
    have hle := zpow_exp_le_abs z hz.ne' hlog
    have hu := ulp_pos z
    have hsplit : (2 : ℚ) ^ (max (Int.log 2 |z|) (-1022)) = ((2 ^ 52 : Int) : ℚ) * ulp z := by
      unfold ulp
      rw [show max (Int.log 2 |z|) (-1022)
        = 52 + (max (Int.log 2 |z|) (-1022) - 52) by ring, zpow_add₀ (by norm_num)]
      norm_num
    rw [hsplit]
    unfold roundDouble
    apply mul_le_mul_of_nonneg_right _ hu.le
    have hz2 : ((2 ^ 52 : Int) : ℚ) ≤ z / ulp z := by
      rw [le_div_iff₀ hu, ← hsplit]
      exact hle.trans (abs_of_pos hz).le
    exact_mod_cast roundHalfEven_ge_of_int_le hz2
  have lower_neg : ∀ z : ℚ, z < 0 → -1022 ≤ Int.log 2 |z| →
      roundDouble z ≤ -(2 : ℚ) ^ (max (Int.log 2 |z|) (-1022)) := by
    intro z hz hlog
    have hle := zpow_exp_le_abs z hz.ne hlog
    have hu := ulp_pos z
    have hsplit : (2 : ℚ) ^ (max (Int.log 2 |z|) (-1022)) = ((2 ^ 52 : Int) : ℚ) * ulp z := by
      unfold ulp
      rw [show max (Int.log 2 |z|) (-1022)
        = 52 + (max (Int.log 2 |z|) (-1022) - 52) by ring, zpow_add₀ (by norm_num)]
      norm_num
    rw [hsplit]
    unfold roundDouble
    rw [← neg_mul]
    apply mul_le_mul_of_nonneg_right _ hu.le
    have hz2 : z / ulp z ≤ ((-(2 ^ 52) : Int) : ℚ) := by
      rw [div_le_iff₀ hu]
      have hle' : ((2 ^ 52 : Int) : ℚ) * ulp z ≤ -z := by
        rw [← hsplit]
        exact hle.trans (abs_of_neg hz).le
      push_cast at hle' ⊢
      linarith
    have := roundHalfEven_le_of_le_int hz2
    have h' : (roundHalfEven (z / ulp z) : ℚ) ≤ ((-(2 ^ 52) : Int) : ℚ) := by exact_mod_cast this
    push_cast at h' ⊢
    linarith
  have same : ∀ a b : ℚ, a ≤ b →
      max (Int.log 2 |a|) (-1022) = max (Int.log 2 |b|) (-1022) →
      roundDouble a ≤ roundDouble b := by
    intro a b hab he
    have hu : ulp a = ulp b := by unfold ulp; rw [he]
    unfold roundDouble
    rw [hu]
    apply mul_le_mul_of_nonneg_right _ (ulp_pos b).le
    exact_mod_cast roundHalfEven_mono (div_le_div_of_nonneg_right hab (ulp_pos b).le)
  rcases le_or_lt 0 x with hx | hx
  · -- 0 ≤ x ≤ y
    rcases eq_or_lt_of_le hx with hx0 | hxpos
    · rw [← hx0, roundDouble_zero]; exact key_nonneg y (hx.trans h)
    have hypos : 0 < y := lt_of_lt_of_le hxpos h
    have hlog : Int.log 2 |x| ≤ Int.log 2 |y| := by
      rw [abs_of_pos hxpos, abs_of_pos hypos]
      exact Int.log_mono_right hxpos h
    have hE : max (Int.log 2 |x|) (-1022) ≤ max (Int.log 2 |y|) (-1022) :=
      max_le_max hlog (le_refl _)
    rcases eq_or_lt_of_le hE with heq | hlt
    · exact same x y h heq
    · have hylog : -1022 ≤ Int.log 2 |y| := by
        by_contra hcon
        rw [max_eq_right (by omega : Int.log 2 |y| ≤ -1022)] at hlt
        have := le_max_right (Int.log 2 |x|) (-1022)
        omega
      calc roundDouble x ≤ |roundDouble x| := le_abs_self _
        _ ≤ (2 : ℚ) ^ (max (Int.log 2 |x|) (-1022) + 1) := upper x hxpos.ne'
        _ ≤ (2 : ℚ) ^ (max (Int.log 2 |y|) (-1022)) :=
            zpow_le_zpow_right₀ (by norm_num) (by omega)
        _ ≤ roundDouble y := lower_pos y hypos hylog
  · rcases le_or_lt 0 y with hy | hy
    · exact (key_nonpos x hx.le).trans (key_nonneg y hy)
    · -- x ≤ y < 0
      have hlog : Int.log 2 |y| ≤ Int.log 2 |x| := by
        apply Int.log_mono_right (abs_pos.mpr hy.ne)
        rw [abs_of_neg hy, abs_of_neg hx]
        linarith
      have hE : max (Int.log 2 |y|) (-1022) ≤ max (Int.log 2 |x|) (-1022) :=
        max_le_max hlog (le_refl _)
      rcases eq_or_lt_of_le hE with heq | hlt
      · exact same x y h heq.symm
      · have hxlog : -1022 ≤ Int.log 2 |x| := by
          by_contra hcon
          rw [max_eq_right (by omega : Int.log 2 |x| ≤ -1022)] at hlt
          have := le_max_right (Int.log 2 |y|) (-1022)
          omega
        have hup := upper y hy.ne
        calc roundDouble x ≤ -(2 : ℚ) ^ (max (Int.log 2 |x|) (-1022)) := lower_neg x hx hxlog
          _ ≤ -(2 : ℚ) ^ (max (Int.log 2 |y|) (-1022) + 1) :=
              neg_le_neg (zpow_le_zpow_right₀ (by norm_num) (by omega))
          _ ≤ roundDouble y := by
              have := (abs_le.mp hup).1
              linarith

theorem roundHalfEven_ge_sub_half (y : ℚ) : y - 1 / 2 ≤ (roundHalfEven y : ℚ) := by
  unfold roundHalfEven
  simp only
  have hf := Int.lt_floor_add_one y
  split_ifs with h1 h2 h3
  · linarith
  · push_cast; linarith
  · have : y - ⌊y⌋ = 1 / 2 := le_antisymm (not_lt.mp h2) (not_lt.mp h1)
    linarith
  · push_cast; linarith

theorem roundHalfEven_eq_of_lt {y : ℚ} {m : Int} (h1 : (m : ℚ) - 1 / 2 < y)
    (h2 : y < m + 1 / 2) : roundHalfEven y = m := by
  have hle := roundHalfEven_le_add_half y
  have hge := roundHalfEven_ge_sub_half y
  have a : (roundHalfEven y : ℚ) < m + 1 := by linarith
  have b : (m : ℚ) - 1 < roundHalfEven y := by linarith
  have a' : roundHalfEven y < m + 1 := by exact_mod_cast a
  have b' : m - 1 < roundHalfEven y := by exact_mod_cast b
  omega

theorem roundHalfEven_tie (f : Int) :
    roundHalfEven ((f : ℚ) + 1 / 2) = if f % 2 = 0 then f else f + 1 := by
  have hfl : ⌊(f : ℚ) + 1 / 2⌋ = f := by
    rw [Int.floor_eq_iff]
    constructor <;> linarith
  unfold roundHalfEven
  simp only [hfl]
  norm_num

theorem log_abs_eq {x : ℚ} {k : Int} (hx : 0 < x) (h1 : (2 : ℚ) ^ k ≤ x)
    (h2 : x < (2 : ℚ) ^ (k + 1)) : Int.log 2 |x| = k := by
  rw [abs_of_pos hx]
  have a : k ≤ Int.log 2 x := by
    rw [← Int.zpow_le_iff_le_log (by norm_num) hx]
    simpa using h1
  have b : Int.log 2 x < k + 1 := by
    rw [← Int.lt_zpow_iff_log_lt (by norm_num) hx]
    simpa using h2
  omega

/-- The quotient of a whole number below `2 ^ 53` by 60, rounded to a double, has the
whole part of the exact quotient. -/
theorem floor_roundDouble_div_sixty (t : ℕ) (ht : t < 2 ^ 53) :
    ⌊roundDouble ((t : ℚ) / 60)⌋ = ((t / 60 : ℕ) : Int) := by
  by_cases h0 : t = 0
  · subst h0; simp [roundDouble_zero]
  have hxpos : (0 : ℚ) < (t : ℚ) / 60 := by
    have : (0 : ℚ) < t := by exact_mod_cast Nat.pos_of_ne_zero h0
    positivity
  -- the exponent is at most 47
  have hlog : Int.log 2 |(t : ℚ) / 60| < 48 := by
    rw [abs_of_pos hxpos, ← Int.lt_zpow_iff_log_lt (by norm_num) hxpos]
    have h53 : (t : ℚ) < 9007199254740992 := by exact_mod_cast ht
    rw [div_lt_iff₀ (by norm_num)]
    norm_num
    linarith
  obtain ⟨k, hk5, hk⟩ : ∃ k : ℕ, 5 ≤ k ∧
      max (Int.log 2 |(t : ℚ) / 60|) (-1022) - 52 = -(k : Int) := by
    refine ⟨(52 - max (Int.log 2 |(t : ℚ) / 60|) (-1022)).toNat, ?_, ?_⟩
    · have : max (Int.log 2 |(t : ℚ) / 60|) (-1022) ≤ 47 := max_le (by omega) (by norm_num)
      omega
    · have : max (Int.log 2 |(t : ℚ) / 60|) (-1022) ≤ 47 := max_le (by omega) (by norm_num)
      omega
  have hulp : ulp ((t : ℚ) / 60) = 1 / ((2 ^ k : ℕ) : ℚ) := by
    unfold ulp
    rw [hk, zpow_neg, zpow_natCast]
    push_cast
    rw [one_div]
  have hN : (32 : ℚ) ≤ ((2 ^ k : ℕ) : ℚ) := by
    have : 2 ^ 5 ≤ 2 ^ k := Nat.pow_le_pow_right (by norm_num) hk5
    exact_mod_cast this
  set N : ℚ := ((2 ^ k : ℕ) : ℚ) with hNdef
  have hNpos : (0 : ℚ) < N := by linarith
  have hN2 : N = (2 : ℚ) ^ k := by rw [hNdef]; push_cast; rfl
  have hdiv : (t : ℚ) = 60 * ((t / 60 : ℕ) : ℚ) + ((t % 60 : ℕ) : ℚ) := by
    exact_mod_cast (Nat.div_add_mod t 60).symm
  have hr : ((t % 60 : ℕ) : ℚ) ≤ 59 := by
    have : t % 60 ≤ 59 := by omega
    exact_mod_cast this
  have hr0 : (0 : ℚ) ≤ ((t % 60 : ℕ) : ℚ) := by positivity
  -- the scaled quotient lies between `q * N` and `(q + 1) * N - N / 60`
  have hy : (t : ℚ) / 60 / ulp ((t : ℚ) / 60) = (t : ℚ) / 60 * N := by
    rw [hulp, div_div_eq_mul_div, div_one]
  have hlow : (((t / 60 : ℕ) : Int) * (2 ^ k : ℕ) : Int) ≤
      roundHalfEven ((t : ℚ) / 60 / ulp ((t : ℚ) / 60)) := by
    apply roundHalfEven_ge_of_int_le
    rw [hy]
    push_cast
    rw [← hN2]
    have : ((t / 60 : ℕ) : ℚ) ≤ (t : ℚ) / 60 := by
      rw [le_div_iff₀ (by norm_num)]; linarith
    exact mul_le_mul_of_nonneg_right this hNpos.le
  have hupp : (roundHalfEven ((t : ℚ) / 60 / ulp ((t : ℚ) / 60)) : ℚ)
      < (((t / 60 : ℕ) : ℚ) + 1) * N := by
    have h1 := roundHalfEven_le_add_half ((t : ℚ) / 60 / ulp ((t : ℚ) / 60))
    rw [hy] at h1 ⊢
    have : (t : ℚ) / 60 ≤ ((t / 60 : ℕ) : ℚ) + 59 / 60 := by
      rw [div_le_iff₀ (by norm_num)]; linarith
    have h2 : (t : ℚ) / 60 * N ≤ (((t / 60 : ℕ) : ℚ) + 59 / 60) * N :=
      mul_le_mul_of_nonneg_right this hNpos.le
    nlinarith
  have hlow' : ((t / 60 : ℕ) : ℚ) * N ≤
      (roundHalfEven ((t : ℚ) / 60 / ulp ((t : ℚ) / 60)) : ℚ) := by
    have : (((((t / 60 : ℕ) : Int) * (2 ^ k : ℕ) : Int)) : ℚ) ≤
        (roundHalfEven ((t : ℚ) / 60 / ulp ((t : ℚ) / 60)) : ℚ) := by exact_mod_cast hlow
    push_cast at this
    rw [hN2]
    exact this
  rw [Int.floor_eq_iff]
  unfold roundDouble
  generalize roundHalfEven ((t : ℚ) / 60 / ulp ((t : ℚ) / 60)) = R at hlow' hupp ⊢
  rw [hulp]
  constructor
  · rw [mul_one_div, le_div_iff₀ hNpos]
    exact_mod_cast hlow'
  · rw [mul_one_div, div_lt_iff₀ hNpos]
    exact_mod_cast hupp

theorem roundDouble_of_log {x : ℚ} {k : Int} (hx : 0 < x) (h1 : (2 : ℚ) ^ k ≤ x)
    (h2 : x < (2 : ℚ) ^ (k + 1)) (hk : -1022 ≤ k) :
    roundDouble x = (roundHalfEven (x / (2 : ℚ) ^ (k - 52)) : ℚ) * (2 : ℚ) ^ (k - 52) := by
  unfold roundDouble ulp
  rw [log_abs_eq hx h1 h2, max_eq_left hk]

theorem numberToString_natCast (n : ℕ) (h : n < 2 ^ 53) :
    numberToString (n : Int) = toString (n : Int) := by
  unfold numberToString
  rw [if_pos (by simpa using h)]

/-! ### AudioManager -/

theorem toDouble_of_lt {x : ℚ} (h : |x| < (2 : ℚ) ^ (1024 : ℕ) - (2 : ℚ) ^ (970 : ℕ)) :
    toDouble x = some (roundDouble x) := by
  unfold toDouble
  rw [if_neg (not_le.mpr h)]

theorem toDouble_intCast (n : Int) (h : n.natAbs < 2 ^ 53) : toDouble (n : ℚ) = some (n : ℚ) := by
  have habs : |(n : ℚ)| < 2 ^ (53 : ℕ) := by
    rw [← Int.cast_abs, ← Nat.cast_natAbs]
    exact_mod_cast h
  rw [toDouble_of_lt (lt_trans habs (by norm_num)), roundDouble_intCast n h]

theorem roundDouble_nonneg {x : ℚ} (h : 0 ≤ x) : 0 ≤ roundDouble x := by
  have h2 := roundDouble_mono h
  rwa [roundDouble_zero] at h2

/-- A value whose quotient by its spacing is an integer is a double. -/
theorem roundDouble_eq_self {x : ℚ} {k m : Int} (hx : 0 < x) (h1 : (2 : ℚ) ^ k ≤ x)
    (h2 : x < (2 : ℚ) ^ (k + 1)) (hk : -1022 ≤ k) (hm : x / (2 : ℚ) ^ (k - 52) = m) :
    roundDouble x = x := by
  rw [roundDouble_of_log hx h1 h2 hk, hm, roundHalfEven_intCast, ← hm]
  have hpos : (0 : ℚ) < (2 : ℚ) ^ (k - 52) := by positivity
  field_simp

/-- Outside the subnormal range, rounding to a double changes a value by at most the
fraction `2 ^ (-53)` of it. -/
theorem roundDouble_sub_le {x : ℚ} (h : (2 : ℚ) ^ (-1022 : Int) ≤ |x|) :
    |roundDouble x - x| ≤ |x| / 2 ^ (53 : ℕ) := by
  have hpos : 0 < |x| := lt_of_lt_of_le (by positivity) h
  have hx : x ≠ 0 := abs_pos.mp hpos
  have hlog : -1022 ≤ Int.log 2 |x| := by
    rw [← Int.zpow_le_iff_le_log (by norm_num) hpos]
    simpa using h
  have hle := zpow_exp_le_abs x hx hlog
  have hu : ulp x = (2 : ℚ) ^ (max (Int.log 2 |x|) (-1022)) / 2 ^ (52 : ℕ) := by
    unfold ulp
    rw [zpow_sub₀ (by norm_num : (2 : ℚ) ≠ 0)]
    norm_num
  have hupos := ulp_pos x
  have hr1 := roundHalfEven_le_add_half (x / ulp x)
  have hr2 := roundHalfEven_ge_sub_half (x / ulp x)
  have hxu : x / ulp x * ulp x = x := by field_simp
  have hd : roundDouble x - x = ((roundHalfEven (x / ulp x) : ℚ) - x / ulp x) * ulp x := by
    unfold roundDouble
    rw [sub_mul, hxu]
  have habs : |(roundHalfEven (x / ulp x) : ℚ) - x / ulp x| ≤ 1 / 2 := by
    rw [abs_le]
    constructor <;> linarith
  rw [hd, abs_mul, abs_of_pos hupos]
  calc |(roundHalfEven (x / ulp x) : ℚ) - x / ulp x| * ulp x
      ≤ 1 / 2 * ulp x := mul_le_mul_of_nonneg_right habs hupos.le
    _ = (2 : ℚ) ^ (max (Int.log 2 |x|) (-1022)) / 2 ^ (53 : ℕ) := by
        rw [hu]; ring
    _ ≤ |x| / 2 ^ (53 : ℕ) := by
        apply div_le_div_of_nonneg_right hle
        positivity

/-- C6 (as stated, refuted): on a track of 200 seconds the progress `3/2` (a drag to
`x = 150` on a seekbar 100 wide) makes `AudioManager.setProgress` assign `200 * 3/2 = 300`
to `currentTime`, not `200 * clamp(3/2, 0, 1) = 200`, and the progress `-1/2` makes it
assign `-100`; it is the media element that brings the position to 200, while
`SeekbarManager.setProgress` clamps the progress itself (fill 100 percent). On a track of
`2 ^ 1023` seconds the progress 2 makes the product an infinity: the assignment throws and
the position stays where it was, at 0. -/
theorem setProgress_value_not_clamped :
    audioManager200.progressTime (3 / 2) = some 300 ∧
    audioManager200.getDuration * min (max (3 / 2) 0) 1 = 200 ∧
    audioManager200.progressTime (-1 / 2) = some (-100) ∧
    (audioManager200.setProgress (3 / 2)).state.songAudio.currentTime = 200 ∧
    (SeekbarManager.setProgress seekbar100 audioManager200 (3 / 2)).progressWidth = 100 ∧
    (SeekbarManager.setProgressTouch seekbar100 audioManager200 popupHidden 0
        ⟨some 10, 150⟩).state.2.1.songAudio.currentTime = 200 ∧
    audioManagerLong.progressTime 2 = none ∧
    audioManagerLong.setProgress 2 = .threw audioManagerLong ∧
    audioManagerLong.songAudio.currentTime = 0 := by
  have h300 : toDouble (300 : ℚ) = some 300 := by
    exact_mod_cast toDouble_intCast 300 (by decide)
  have hm100 : toDouble (-100 : ℚ) = some (-100) := by
    exact_mod_cast toDouble_intCast (-100) (by decide)
  have h100 : roundDouble (100 : ℚ) = 100 := by
    exact_mod_cast roundDouble_intCast 100 (by decide)
  have h32 : roundDouble (3 / 2 : ℚ) = 3 / 2 := by
    apply roundDouble_eq_self (k := 0) (m := 6755399441055744) <;> norm_num
  have hx : roundDouble ((150 : ℚ) / 100) = 3 / 2 := by
    have h : (150 : ℚ) / 100 = 3 / 2 := by norm_num
    rw [h, h32]
  have hdur : audioManager200.getDuration = 200 := rfl
  have hdur2 : (audioManager200.playInteractionAudio 0 60).getDuration = 200 := rfl
  have hdurLong : audioManagerLong.getDuration = 2 ^ (1023 : ℕ) := rfl
  have hp : audioManager200.progressTime (3 / 2) = some 300 := by
    unfold AudioManager.progressTime
    rw [hdur]
    norm_num
    exact h300
  have hp2 : (audioManager200.playInteractionAudio 0 60).progressTime (3 / 2) = some 300 := by
    unfold AudioManager.progressTime
    rw [hdur2]
    norm_num
    exact h300
  have hlong : audioManagerLong.progressTime 2 = none := by
    unfold AudioManager.progressTime toDouble
    rw [hdurLong]
    norm_num
  have hmoved : |(0 : ℚ) - 150| > 20 := by norm_num
  refine ⟨hp, ?_, ?_, ?_, ?_, ?_, hlong, ?_, rfl⟩
  · rw [hdur]
    norm_num
  · unfold AudioManager.progressTime
    rw [hdur]
    norm_num
    exact hm100
  · unfold AudioManager.setProgress
    simp only [hp, Completion.state, Audio.setCurrentTime]
    norm_num [audioManager200]
  · unfold SeekbarManager.setProgress
    norm_num
    exact h100
  · unfold SeekbarManager.setProgressTouch AudioManager.setProgress
    simp only [seekbar100, hx, hmoved, decide_True, if_true, hp2, Completion.state,
      Audio.setCurrentTime, Bool.false_eq_true, if_false]
    norm_num [audioManager200, AudioManager.playInteractionAudio]
  · unfold AudioManager.setProgress
    rw [hlong]

/-- A `MouseEvent` handed to the drag handler has no property `time`, so the call is never
skipped, however recent the last one was: the fill follows the pointer, and the time of the
last call becomes `undefined`. -/
theorem setProgressTouch_mouse_event (sb : SeekbarManager) (am : AudioManager)
    (popup : PopupManager) (now : Int) (x : ℚ) :
    (SeekbarManager.setProgressTouch sb am popup now ⟨none, x⟩).state.1.progressWidth
      = (sb.setProgress am (roundDouble (x / sb.offsetWidth))).progressWidth ∧
    (SeekbarManager.setProgressTouch sb am popup now ⟨none, x⟩).state.1.lastSetProgressCall
      = none := by
  unfold SeekbarManager.setProgressTouch
  simp only [Bool.false_eq_true, if_false]
  constructor <;> split <;> split_ifs <;> simp [Completion.state, SeekbarManager.setProgress]

/-- With a time stamp on both sides, a call less than 4 ms after the last one is skipped. -/
theorem setProgressTouch_too_soon (sb : SeekbarManager) (am : AudioManager)
    (popup : PopupManager) (now : Int) (time last x : ℚ)
    (hlast : sb.lastSetProgressCall = some last) (h : time - last < 4) :
    SeekbarManager.setProgressTouch sb am popup now ⟨some time, x⟩ = .normal (sb, am, popup) := by
  unfold SeekbarManager.setProgressTouch
  simp [hlast, h]

/-- C6 (amended): for every track duration `d ≥ 0` (a double) and every progress `p` whose
product with `d` stays within the doubles, `AudioManager.setProgress(p)` leaves the
playback position at the double of `d * clamp(p, 0, 1)` and changes nothing else: at the
double of `d * p` when `p` is in `[0,1]`, at 0 when `p < 0`, at `d` when `p > 1`. The
value is bounded by the media element, not by the method. For `p` in `[0,1]`, outside the
subnormal range, reading the progress back as position/duration gives `p` up to the
rounding of the product and of the quotient, a relative error of at most `3 * 2 ^ (-53)`. -/
theorem setProgress_position (am : AudioManager) (d p : ℚ)
    (hd : am.songAudio.duration = some d) (h0 : 0 ≤ d) (hdd : roundDouble d = d)
    (hfin : |d * p| < (2 : ℚ) ^ (1024 : ℕ) - (2 : ℚ) ^ (970 : ℕ)) :
    am.setProgress p
      = .normal { am with
          songAudio :=
            { am.songAudio with currentTime := roundDouble (d * min (max p 0) 1) } } ∧
    (0 ≤ p → p ≤ 1 → roundDouble (d * min (max p 0) 1) = roundDouble (d * p)) ∧
    (p < 0 → roundDouble (d * min (max p 0) 1) = 0) ∧
    (1 < p → roundDouble (d * min (max p 0) 1) = d) ∧
    ((2 : ℚ) ^ (-1021 : Int) ≤ p → p ≤ 1 → (2 : ℚ) ^ (-1021 : Int) ≤ d * p →
      ∃ r : ℚ, (am.setProgress p).state.getProgress = some r ∧
        |r - p| ≤ 3 * p / 2 ^ (53 : ℕ)) := by
  have hdur : am.getDuration = d := by
    unfold AudioManager.getDuration
    rw [hd]
    rfl
  have hin : 0 ≤ p → p ≤ 1 → roundDouble (d * min (max p 0) 1) = roundDouble (d * p) := by
    intro hp0 hp1
    rw [max_eq_left hp0, min_eq_left hp1]
  have hneg : p < 0 → roundDouble (d * min (max p 0) 1) = 0 := by
    intro hp
    rw [max_eq_right hp.le, min_eq_left (by norm_num), mul_zero, roundDouble_zero]
  have hbig : 1 < p → roundDouble (d * min (max p 0) 1) = d := by
    intro hp
    rw [max_eq_left (by linarith), min_eq_right hp.le, mul_one, hdd]
  have hpos : max 0 (min (roundDouble (d * p)) d) = roundDouble (d * min (max p 0) 1) := by
    rcases lt_or_le p 0 with hp | hp
    · rw [hneg hp]
      have h1 : roundDouble (d * p) ≤ 0 := by
        have h2 := roundDouble_mono (mul_nonpos_of_nonneg_of_nonpos h0 hp.le)
        rwa [roundDouble_zero] at h2
      exact max_eq_left ((min_le_left _ _).trans h1)
    · rcases le_or_lt p 1 with hp1 | hp1
      · rw [hin hp hp1]
        have h1 : roundDouble (d * p) ≤ d := by
          have h2 := roundDouble_mono (mul_le_of_le_one_right h0 hp1)
          rwa [hdd] at h2
        rw [min_eq_left h1]
        exact max_eq_right (roundDouble_nonneg (mul_nonneg h0 hp))
      · rw [hbig hp1]
        have h1 : d ≤ roundDouble (d * p) := by
          have h2 := roundDouble_mono (le_mul_of_one_le_right h0 hp1.le)
          rwa [hdd] at h2
        rw [min_eq_right h1]
        exact max_eq_right h0
  have hset : am.setProgress p
      = .normal { am with
          songAudio :=
            { am.songAudio with currentTime := roundDouble (d * min (max p 0) 1) } } := by
    unfold AudioManager.setProgress AudioManager.progressTime
    rw [hdur, toDouble_of_lt hfin]
    simp only [Audio.setCurrentTime, hd, hpos]
  refine ⟨hset, hin, hneg, hbig, ?_⟩
  intro hpl hp1 hdp
  have hp0 : 0 < p := lt_of_lt_of_le (by positivity) hpl
  have hdpos : 0 < d := by
    rcases h0.lt_or_eq with h | h
    · exact h
    · rw [← h, zero_mul] at hdp
      exact absurd hdp (not_le.mpr (by positivity))
  have hdppos : 0 < d * p := mul_pos hdpos hp0
  -- the position and its distance from the exact product
  have ht := roundDouble_sub_le (x := d * p)
    (le_trans (by norm_num) (hdp.trans (le_abs_self _)))
  rw [abs_of_pos hdppos, abs_le] at ht
  have htd : roundDouble (d * p) ≤ d := by
    have h2 := roundDouble_mono (mul_le_of_le_one_right h0 hp1)
    rwa [hdd] at h2
  -- the quotient read back
  have hq1 : p * (1 - 1 / 2 ^ (53 : ℕ)) ≤ roundDouble (d * p) / d := by
    rw [le_div_iff₀ hdpos]
    nlinarith [ht.1]
  have hq2 : roundDouble (d * p) / d ≤ p * (1 + 1 / 2 ^ (53 : ℕ)) := by
    rw [div_le_iff₀ hdpos]
    nlinarith [ht.2]
  have hqpos : 0 < roundDouble (d * p) / d :=
    lt_of_lt_of_le (mul_pos hp0 (by norm_num)) hq1
  have hqle : roundDouble (d * p) / d ≤ 1 := by
    rw [div_le_one hdpos]
    exact htd
  have hqlow : (2 : ℚ) ^ (-1022 : Int) ≤ |roundDouble (d * p) / d| := by
    rw [abs_of_pos hqpos]
    refine le_trans ?_ hq1
    have h1 : (2 : ℚ) ^ (-1021 : Int) * (1 - 1 / 2 ^ (53 : ℕ)) ≤ p * (1 - 1 / 2 ^ (53 : ℕ)) :=
      mul_le_mul_of_nonneg_right hpl (by norm_num)
    refine le_trans ?_ h1
    rw [show (-1021 : Int) = -1022 + 1 by norm_num, zpow_add₀ (by norm_num : (2 : ℚ) ≠ 0)]
    have h2 : (0 : ℚ) < (2 : ℚ) ^ (-1022 : Int) := by positivity
    nlinarith
  have hr := roundDouble_sub_le hqlow
  rw [abs_of_pos hqpos, abs_le] at hr
  refine ⟨roundDouble (roundDouble (d * p) / d), ?_, ?_⟩
  · rw [hset, hin hp0.le hp1]
    have hfin2 : |roundDouble (d * p) / d| < (2 : ℚ) ^ (1024 : ℕ) - (2 : ℚ) ^ (970 : ℕ) := by
      rw [abs_of_pos hqpos]
      exact lt_of_le_of_lt hqle (by norm_num)
    simp only [Completion.state, AudioManager.getProgress, AudioManager.getDuration,
      AudioManager.getCurrentTime, hd, Option.getD_some, hdpos.ne.symm, if_false]
    exact toDouble_of_lt hfin2
  · rw [abs_le]
    constructor
    · nlinarith [hr.1, hq1, hq2]
    · nlinarith [hr.2, hq1, hq2]

/-- Witness for C6: on the track of 200 seconds the progress `3/2` leaves the position at
200, and the progress `1/2` reads back as `1/2` up to rounding. -/
theorem setProgress_position_witness :
    audioManager200.setProgress (3 / 2)
      = .normal { audioManager200 with
          songAudio :=
            { audioManager200.songAudio with
              currentTime := roundDouble (200 * min (max (3 / 2) 0) 1) } } ∧
    roundDouble (200 * min (max (3 / 2) 0) 1) = 200 ∧
    ∃ r : ℚ, (audioManager200.setProgress (1 / 2)).state.getProgress = some r ∧
      |r - 1 / 2| ≤ 3 * (1 / 2) / 2 ^ (53 : ℕ) :=
  ⟨(setProgress_position audioManager200 200 (3 / 2) rfl (by norm_num)
      (by exact_mod_cast roundDouble_intCast 200 (by decide)) (by norm_num)).1,
   (setProgress_position audioManager200 200 (3 / 2) rfl (by norm_num)
      (by exact_mod_cast roundDouble_intCast 200 (by decide)) (by norm_num)).2.2.2.1
      (by norm_num),
   (setProgress_position audioManager200 200 (1 / 2) rfl (by norm_num)
      (by exact_mod_cast roundDouble_intCast 200 (by decide)) (by norm_num)).2.2.2.2
      (by norm_num) (by norm_num) (by norm_num)⟩

theorem playInteractionAudio_songAudio (am : AudioManager) (now wait : Int) :
    (am.playInteractionAudio now wait).songAudio = am.songAudio := by
  unfold AudioManager.playInteractionAudio
  split
  · split <;> rfl
  · rfl

theorem clamp_eq_min_max (v : ℚ) :
    (if v < 0 then 0 else if v > 100 then 100 else v) = min (max v 0) 100 := by
  by_cases h1 : v < 0
  · rw [if_pos h1, max_eq_right h1.le, min_eq_left (by norm_num)]
  · rw [if_neg h1, max_eq_left (not_lt.mp h1)]
    by_cases h2 : v > 100
    · rw [if_pos h2, min_eq_right h2.le]
    · rw [if_neg h2, min_eq_left (not_lt.mp h2)]

theorem setVolume_volume (am : AudioManager) (ls : LocalStorage) (now : Int) (v : ℚ) :
    (am.setVolume ls now v).1.songAudio.volume = min (max v 0) 100 / 100 := by
  rw [← clamp_eq_min_max]
  rfl

theorem mathRound_intCast (n : Int) : mathRound (n : ℚ) = n := by
  unfold mathRound
  rw [Int.floor_eq_iff]
  constructor <;> linarith

theorem getVolume_of_int (am : AudioManager) (n : Int) (h : am.songAudio.volume = n / 100) :
    am.getVolume = n := by
  unfold AudioManager.getVolume
  rw [h, div_mul_cancel₀ _ (by norm_num : (100 : ℚ) ≠ 0)]
  exact mathRound_intCast n

theorem min_max_swap (x : ℚ) : min (max x 0) 100 = max 0 (min x 100) := by
  rcases le_total x 0 with h | h
  · rw [max_eq_right h, min_eq_left (by norm_num), min_eq_left (by linarith), max_eq_left h]
  · rw [max_eq_left h]
    rcases le_total x 100 with h2 | h2
    · rw [min_eq_left h2, max_eq_right h]
    · rw [min_eq_right h2, max_eq_right (by norm_num)]

theorem addVolume_int (am : AudioManager) (ls : LocalStorage) (popup : PopupManager)
    (now : Int) (n a : Int) (h : am.songAudio.volume = n / 100) :
    (am.addVolume ls popup now a).1.songAudio.volume
      = ((max 0 (min (n + a) 100) : Int) : ℚ) / 100 := by
  have hv : (am.addVolume ls popup now a).1.songAudio.volume
      = min (max ((am.getVolume : ℚ) + a) 0) 100 / 100 := setVolume_volume am ls now _
  rw [hv, getVolume_of_int am n h]
  congr 1
  push_cast
  exact min_max_swap _

/-- C7: `setVolume(v)` stores and applies `min(max(v,0),100)`, which is `v` itself when
`0 ≤ v ≤ 100`; and from an integer volume in `[0,100]`, `changeVolume(true)`,
`changeVolume(false)` and `addVolume(a)` for any integer `a` leave the volume an integer
in `[0,100]`. -/
theorem volume_stays_in_range (am : AudioManager) (ls : LocalStorage) (popup : PopupManager)
    (now : Int) :
    (∀ v : ℚ,
      (am.setVolume ls now v).2.getItem "volume" = some (Stored.num (min (max v 0) 100)) ∧
      (am.setVolume ls now v).1.songAudio.volume = min (max v 0) 100 / 100 ∧
      (0 ≤ v → v ≤ 100 → min (max v 0) 100 = v)) ∧
    (∀ n : Int, 0 ≤ n → n ≤ 100 → am.songAudio.volume = n / 100 →
      (∀ increase : Bool, ∃ m : Int, 0 ≤ m ∧ m ≤ 100 ∧
        (am.changeVolume ls popup now increase).1.songAudio.volume = m / 100 ∧
        (am.changeVolume ls popup now increase).1.getVolume = m) ∧
      (∀ a : Int, ∃ m : Int, 0 ≤ m ∧ m ≤ 100 ∧
        (am.addVolume ls popup now a).1.songAudio.volume = m / 100 ∧
        (am.addVolume ls popup now a).1.getVolume = m)) := by
  have hadd : ∀ n : Int, am.songAudio.volume = n / 100 → ∀ a : Int,
      ∃ m : Int, 0 ≤ m ∧ m ≤ 100 ∧
        (am.addVolume ls popup now a).1.songAudio.volume = m / 100 ∧
        (am.addVolume ls popup now a).1.getVolume = m := by
    intro n hn a
    have hvol := addVolume_int am ls popup now n a hn
    exact ⟨max 0 (min (n + a) 100), le_max_left _ _,
      max_le (by norm_num) (min_le_right _ _), hvol, getVolume_of_int _ _ hvol⟩
  refine ⟨?_, ?_⟩
  · intro v
    refine ⟨?_, setVolume_volume am ls now v, ?_⟩
    · rw [← clamp_eq_min_max]
      simp [AudioManager.setVolume, LocalStorage.setItem, LocalStorage.getItem]
    · intro h0 h1
      rw [max_eq_left h0, min_eq_left h1]
  · intro n _ _ hn
    refine ⟨?_, hadd n hn⟩
    intro increase
    have hcur : am.getVolume = n := getVolume_of_int am n hn
    cases increase with
    | true =>
      by_cases h5 : n < 5
      · have : am.changeVolume ls popup now true = am.addVolume ls popup now ((1 : Int) : ℚ) := by
          simp [AudioManager.changeVolume, hcur, h5]
        rw [this]; exact hadd n hn 1
      · have : am.changeVolume ls popup now true = am.addVolume ls popup now ((5 : Int) : ℚ) := by
          simp [AudioManager.changeVolume, hcur, h5]
        rw [this]; exact hadd n hn 5
    | false =>
      by_cases h5 : n ≤ 5
      · have : am.changeVolume ls popup now false
            = am.addVolume ls popup now ((-1 : Int) : ℚ) := by
          simp [AudioManager.changeVolume, hcur, h5]
        rw [this]; exact hadd n hn (-1)
      · have : am.changeVolume ls popup now false
            = am.addVolume ls popup now ((-5 : Int) : ℚ) := by
          simp [AudioManager.changeVolume, hcur, h5]
        rw [this]; exact hadd n hn (-5)

/-- Witness for C7: at volume 50, `changeVolume(true)` leaves an integer volume in range. -/
theorem volume_stays_in_range_witness :
    ∃ m : Int, 0 ≤ m ∧ m ≤ 100 ∧
      (audioManager200.changeVolume LocalStorage.empty popupHidden 0 true).1.songAudio.volume
        = m / 100 ∧
      (audioManager200.changeVolume LocalStorage.empty popupHidden 0 true).1.getVolume = m :=
  ((volume_stays_in_range audioManager200 LocalStorage.empty popupHidden 0).2 50
    (by decide) (by decide) (by norm_num [audioManager200])).1 true

/-! ### SeekbarManager.formatMinutes -/

theorem floor_natCast_div_sixty (t : ℕ) : ⌊(t : ℚ) / 60⌋ = ((t / 60 : ℕ) : Int) := by
  have h := Rat.floor_natCast_div_natCast t 60
  simpa using h

theorem jsRem_natCast_sixty (t : ℕ) : jsRem (t : ℚ) 60 = ((t % 60 : ℕ) : ℚ) := by
  have hpos : (0 : ℚ) ≤ (t : ℚ) / 60 := by positivity
  unfold jsRem jsTrunc
  rw [if_pos hpos, floor_natCast_div_sixty]
  have h := Nat.div_add_mod t 60
  have hq : (t : ℚ) = 60 * ((t / 60 : ℕ) : ℚ) + ((t % 60 : ℕ) : ℚ) := by
    exact_mod_cast h.symm
  rw [Int.cast_natCast]
  linarith

theorem two_digit_seconds (s : ℕ) (h : s < 60) :
    (if ((s : ℕ) : Int) < 10 then "0" else "") ++ toString ((s : ℕ) : Int)
      = String.mk [Nat.digitChar (s / 10), Nat.digitChar (s % 10)] := by
  interval_cases s <;> rfl

/-- C8 (as stated, refuted): `67553994410557496` is a whole number of seconds and a double;
its quotient by 60 rounds up to the double `1125899906842625`, so `formatMinutes` prints
that minute count, one more than `t div 60 = 1125899906842624`, before the seconds `56`. -/
theorem formatMinutes_minutes_rounded_up :
    SeekbarManager.formatMinutes 67553994410557496 = "1125899906842625:56" ∧
    roundDouble 67553994410557496 = 67553994410557496 ∧
    67553994410557496 / 60 = 1125899906842624 ∧
    67553994410557496 % 60 = 56 ∧
    SeekbarManager.formatMinutes 67553994410557496
      ≠ toString (67553994410557496 / 60) ++ ":" ++ "56" := by
  have hquot : roundDouble ((67553994410557496 : ℚ) / 60) = 1125899906842625 := by
    rw [roundDouble_of_log (k := 50) (by norm_num) (by norm_num) (by norm_num) (by norm_num)]
    have h : roundHalfEven ((67553994410557496 : ℚ) / 60 / (2 : ℚ) ^ ((50 : Int) - 52))
        = 4503599627370500 := by
      apply roundHalfEven_eq_of_lt <;> norm_num
    rw [h]
    norm_num
  have hrem : jsRem 67553994410557496 60 = 56 := by
    have h := jsRem_natCast_sixty 67553994410557496
    norm_num at h
    exact h
  have hfmt : SeekbarManager.formatMinutes 67553994410557496 = "1125899906842625:56" := by
    unfold SeekbarManager.formatMinutes
    simp only
    rw [hquot, hrem]
    have h1 : ⌊(1125899906842625 : ℚ)⌋ = 1125899906842625 := by
      exact_mod_cast Int.floor_intCast (1125899906842625 : Int)
    have h2 : ⌊(56 : ℚ)⌋ = 56 := by
      exact_mod_cast Int.floor_intCast (56 : Int)
    rw [h1, h2]
    decide
  refine ⟨hfmt, ?_, by norm_num, by norm_num, ?_⟩
  · rw [roundDouble_of_log (k := 55) (by norm_num) (by norm_num) (by norm_num) (by norm_num)]
    have h : roundHalfEven ((67553994410557496 : ℚ) / (2 : ℚ) ^ ((55 : Int) - 52))
        = 8444249301319687 := by
      apply roundHalfEven_eq_of_lt <;> norm_num
    rw [h]
    norm_num
  · rw [hfmt]
    decide

/-- C8 (amended): for every whole number of seconds `0 ≤ t < 2 ^ 53`, `formatMinutes(t)` is
the decimal numeral of `t div 60`, then `":"`, then `t mod 60` written with exactly two
digits (tens digit, then units digit, so zero-padded below 10); the seconds value is below
60 and `60 * minutes + seconds = t`. -/
theorem formatMinutes_whole_seconds (t : ℕ) (ht : t < 2 ^ 53) :
    SeekbarManager.formatMinutes (t : ℚ)
      = toString (t / 60) ++ ":"
        ++ String.mk [Nat.digitChar (t % 60 / 10), Nat.digitChar (t % 60 % 10)] ∧
    (String.mk [Nat.digitChar (t % 60 / 10), Nat.digitChar (t % 60 % 10)]).length = 2 ∧
    t % 60 < 60 ∧
    60 * (t / 60) + t % 60 = t := by
  refine ⟨?_, rfl, Nat.mod_lt _ (by norm_num), Nat.div_add_mod t 60⟩
  have hq : t / 60 < 2 ^ 53 := lt_of_le_of_lt (Nat.div_le_self _ _) ht
  have hr : t % 60 < 2 ^ 53 := lt_trans (Nat.mod_lt _ (by norm_num)) (by norm_num)
  unfold SeekbarManager.formatMinutes
  simp only
  rw [floor_roundDouble_div_sixty t ht, jsRem_natCast_sixty, Int.floor_natCast,
    numberToString_natCast _ hq, numberToString_natCast _ hr, String.append_assoc,
    two_digit_seconds _ (Nat.mod_lt _ (by norm_num))]
  rfl

/-- Witness for C8: 125 seconds are shown as `2:05`. -/
theorem formatMinutes_whole_seconds_witness :
    SeekbarManager.formatMinutes ((125 : ℕ) : ℚ) = "2:05" :=
  (formatMinutes_whole_seconds 125 (by norm_num)).1

/-! ### SongManager.selectNext and selectPrevious -/

/-- C9: on a visible list of `n ≥ 1` items, a `selectNext` call outside the 100 ms cooldown
moves the active item from position `i` to `i+1`, from the last position to the first, and
from no active item to the first; `selectPrevious` moves it from `i` to `i-1`, from the
first position to the last, and from no active item to the last; a call made less than
100 ms after the previous accepted call of the same kind changes nothing. -/
theorem select_next_previous (sm : SongManager) (am : AudioManager) (now : Int)
    (hn : 1 ≤ sm.songList.length) :
    ((∀ last, sm.selectNextTimeout = some last → 100 ≤ now - last) →
      (∀ i, i < sm.songList.length → sm.currentSongItem = some (.child i) →
        sm.selectNext am now = .normal
          ({ sm with
              selectNextTimeout := some now
              currentSongItem :=
                some (.child (if i + 1 < sm.songList.length then i + 1 else 0)) },
            am.pauseImage)) ∧
      (sm.currentSongItem = none →
        sm.selectNext am now = .normal
          ({ sm with selectNextTimeout := some now, currentSongItem := some (.child 0) },
            am.pauseImage))) ∧
    ((∀ last, sm.selectPreviousTimeout = some last → 100 ≤ now - last) →
      (∀ i, i < sm.songList.length → sm.currentSongItem = some (.child i) →
        sm.selectPrevious am now = .normal
          ({ sm with
              selectPreviousTimeout := some now
              currentSongItem :=
                some (.child (if 0 < i then i - 1 else sm.songList.length - 1)) },
            am.pauseImage)) ∧
      (sm.currentSongItem = none →
        sm.selectPrevious am now = .normal
          ({ sm with
              selectPreviousTimeout := some now
              currentSongItem := some (.child (sm.songList.length - 1)) },
            am.pauseImage))) ∧
    (∀ last, sm.selectNextTimeout = some last → now - last < 100 →
      sm.selectNext am now = .normal (sm, am)) ∧
    (∀ last, sm.selectPreviousTimeout = some last → now - last < 100 →
      sm.selectPrevious am now = .normal (sm, am)) := by
  have hpos : 0 < sm.songList.length := hn
  refine ⟨?_, ?_, ?_, ?_⟩
  · intro hc
    have hcool : (match sm.selectNextTimeout with
        | some last => decide (now - last < SongManager.selectPrevNextWaitTime)
        | none => false) = false := by
      cases h : sm.selectNextTimeout with
      | none => rfl
      | some last =>
        have := hc last h
        simp only [SongManager.selectPrevNextWaitTime, decide_eq_false_iff_not, not_lt]
        exact this
    refine ⟨?_, ?_⟩
    · intro i _ hcur
      unfold SongManager.selectNext
      simp only [hcool, hcur, nextElementSibling, firstElementChild, hpos,
        SongManager.setActive, SongManager.scrollToCurrentSongItem]
      by_cases h1 : i + 1 < sm.songList.length <;> simp [h1]
    · intro hcur
      unfold SongManager.selectNext
      simp [hcool, hcur, firstElementChild, hpos, SongManager.setActive,
        SongManager.scrollToCurrentSongItem]
  · intro hc
    have hcool : (match sm.selectPreviousTimeout with
        | some last => decide (now - last < SongManager.selectPrevNextWaitTime)
        | none => false) = false := by
      cases h : sm.selectPreviousTimeout with
      | none => rfl
      | some last =>
        have := hc last h
        simp only [SongManager.selectPrevNextWaitTime, decide_eq_false_iff_not, not_lt]
        exact this
    refine ⟨?_, ?_⟩
    · intro i _ hcur
      unfold SongManager.selectPrevious
      simp only [hcool, hcur, previousElementSibling, lastElementChild, hpos,
        SongManager.setActive, SongManager.scrollToCurrentSongItem]
      by_cases h1 : 0 < i <;> simp [h1]
    · intro hcur
      unfold SongManager.selectPrevious
      simp [hcool, hcur, lastElementChild, hpos, SongManager.setActive,
        SongManager.scrollToCurrentSongItem]
  · intro last hl hlt
    unfold SongManager.selectNext
    simp [hl, SongManager.selectPrevNextWaitTime, hlt]
  · intro last hl hlt
    unfold SongManager.selectPrevious
    simp [hl, SongManager.selectPrevNextWaitTime, hlt]

/-- Witness for C9: three songs, the second active, last accepted calls at time 0; at time
100 `selectNext` moves to the third, and at time 99 `selectPrevious` is rejected. -/
theorem select_next_previous_witness :
    (stateThreeSongs.selectNext audioManager200 100).state.1.currentSongItem
        = some (.child 2) ∧
    stateThreeSongs.selectPrevious audioManager200 99
        = .normal (stateThreeSongs, audioManager200) :=
  ⟨by
      rw [((select_next_previous stateThreeSongs audioManager200 100 (by decide)).1
        (by intro last h; cases h; decide)).1 1 (by decide) rfl]
      rfl,
   (select_next_previous stateThreeSongs audioManager200 99 (by decide)).2.2.2 0 rfl
     (by decide)⟩

/-! ### SearchManager.updateSearch -/

/-- When every update comes through the listener of the input element, emptying the input
cancels the pending search: typing `x`, `y` and clearing within the debounce window sends
no query, however long one waits. -/
theorem search_cleared_by_input_listener :
    clientTypedCleared.timers.pending = [] ∧
    (clientTypedCleared.advance apiEmpty 100000).requests = [] := by
  decide

/-- C10 (evaluation at the failing input): the key `x` pressed at time 0 opens and seeds the
search through the keyboard handler, which arms a timer kept in `SearchManager.searchTimeout`;
emptying the input at time 50 runs `updateSearch` as the listener of the input element,
which clears the timer kept on the element (none) and leaves the first one pending; at
time 200 it fires and the catalog is queried with the empty string. -/
theorem search_timer_survives_clear :
    clientSeeded.search.searchTimeout = some 0 ∧
    clientSeededCleared.search.searchInputValue = "" ∧
    clientSeededCleared.timers.pending = [⟨0, 200, .search⟩] ∧
    (clientSeededCleared.advance apiEmpty 199).requests = [] ∧
    (clientSeededCleared.advance apiEmpty 200).requests = [Request.songsQuery "" 20 0] := by
  decide

/-! ### Markers -/

/-- C11: a song whose marker list is set, the empty list included, is not fetched again:
`loadMarker` sends no request and leaves the list unchanged; a marker request is sent only
while the marker is still `undefined`; and after a load that completed with the list `l`
(possibly empty) a later `loadMarker` sends no request and keeps `l`. -/
theorem loadMarker_once (this : Song) (api api' : MarkerApi) (current current' : CurrentSong)
    (m m' : SeekbarMarkers) :
    (∀ l, this.marker = some l →
      (this.loadMarker api current m).requests = [] ∧
      (this.loadMarker api current m).song.marker = some l) ∧
    ((this.loadMarker api current m).requests ≠ [] → this.marker = none) ∧
    (this.marker = none → (this.loadMarker api current m).requests = [.getMarker this.id]) ∧
    (∀ l, this.marker = none → api.getMarker this.id = .ok l →
      (this.loadMarker api current m).song.marker = some l ∧
      ((this.loadMarker api current m).song.loadMarker api' current' m').requests = [] ∧
      ((this.loadMarker api current m).song.loadMarker api' current' m').song.marker
        = some l) := by
  have hloaded : ∀ (s : Song) (a : MarkerApi) (c : CurrentSong) (k : SeekbarMarkers) l,
      s.marker = some l →
      (s.loadMarker a c k).requests = [] ∧ (s.loadMarker a c k).song.marker = some l := by
    intro s a c k l hl
    unfold Song.loadMarker
    simp only [hl]
    split <;> exact ⟨rfl, hl⟩
  have hfetched : ∀ l, this.marker = none → api.getMarker this.id = .ok l →
      (this.loadMarker api current m).song.marker = some l := by
    intro l hn hok
    unfold Song.loadMarker
    simp only [hn, hok]
    split <;> rfl
  refine ⟨fun l hl => hloaded this api current m l hl, ?_, ?_, ?_⟩
  · intro hreq
    cases hm : this.marker with
    | none => rfl
    | some l => exact absurd (hloaded this api current m l hm).1 hreq
  · intro hn
    unfold Song.loadMarker
    simp only [hn]
    split
    · rfl
    · split <;> rfl
  · intro l hn hok
    exact ⟨hfetched l hn hok, hloaded _ api' current' m' l (hfetched l hn hok)⟩

/-- Witness for C11: the first load of `songA` returns the empty list; the second load
sends no request and the list is still empty. -/
theorem loadMarker_once_witness :
    (songA.loadMarker markerApiOk .this markersOne).requests = [.getMarker 7] ∧
    ((songA.loadMarker markerApiOk .this markersOne).song.loadMarker markerApiDown .this
        markersOne).requests = [] ∧
    ((songA.loadMarker markerApiOk .this markersOne).song.loadMarker markerApiDown .this
        markersOne).song.marker = some [] :=
  ⟨(loadMarker_once songA markerApiOk markerApiDown .this .this markersOne markersOne).2.2.1
      rfl,
   ((loadMarker_once songA markerApiOk markerApiDown .this .this markersOne markersOne).2.2.2
      [] rfl rfl).2⟩

theorem filter_key_fresh (nodes : List MarkerNode) (k : Nat) (x : ℚ)
    (h : ∀ n ∈ nodes, n.key < k) :
    (nodes ++ [(⟨k, x⟩ : MarkerNode)]).filter
        (fun n => n.key != (⟨k, x⟩ : MarkerNode).key) = nodes := by
  rw [List.filter_append]
  have h1 : nodes.filter (fun n => n.key != k) = nodes := by
    rw [List.filter_eq_self]
    intro n hn
    have := h n hn
    simp only [bne_iff_ne, ne_eq]
    omega
  simp [h1]

/-- For a current song whose marker list is loaded: if the upload fails, then after
`SeekbarManager.addMarker` has settled the marker list of the song is the list before the
call, the seekbar shows the marker nodes it showed before, no success notice is pending and
the popup reads `Failed`; when the failure arrives before the timer is due the only notice
shown is `Failed`, and when it arrives later `Marked` was shown first. If the upload
succeeds the marker is the last element of the list and its node stays, last on the
seekbar. -/
theorem addMarker_atomic (am : AudioManager) (song : Song) (l : List ℚ) (m : SeekbarMarkers)
    (popup : PopupManager) (api : MarkerApi) (now latency : Int)
    (hl : song.marker = some l) (hkeys : ∀ n ∈ m.nodes, n.key < m.nextKey) :
    (∀ status,
      api.editSongMarker song.id (.add (am.getCurrentTime / am.getDuration * 100))
        = .error status →
      (SeekbarManager.addMarker am (some song) m popup api now latency).song = some song ∧
      (SeekbarManager.addMarker am (some song) m popup api now latency).markers.nodes
        = m.nodes ∧
      (SeekbarManager.addMarker am (some song) m popup api now latency).pendingPopup = none ∧
      (SeekbarManager.addMarker am (some song) m popup api now latency).popup.popupText
        = "Failed" ∧
      (latency < Song.uploadTime →
        (SeekbarManager.addMarker am (some song) m popup api now latency).notices
          = ["Failed"]) ∧
      (Song.uploadTime ≤ latency →
        (SeekbarManager.addMarker am (some song) m popup api now latency).notices
          = ["Marked", "Failed"])) ∧
    (api.editSongMarker song.id (.add (am.getCurrentTime / am.getDuration * 100)) = .ok () →
      (SeekbarManager.addMarker am (some song) m popup api now latency).song
        = some { song with
            marker := some (l ++ [am.getCurrentTime / am.getDuration * 100]) } ∧
      (SeekbarManager.addMarker am (some song) m popup api now latency).markers.nodes
        = m.nodes ++ [⟨m.nextKey, am.getCurrentTime / am.getDuration * 100⟩]) := by
  constructor
  · intro status herr
    simp only [SeekbarManager.addMarker, Song.addMarker, Song.uploadMarkerDelayedAction,
      Song.upload, herr, SeekbarManager.addMarkerToSeekbar, SeekbarManager.removeMarkerNode,
      PopupManager.showPopup, if_true]
    refine ⟨trivial, filter_key_fresh _ _ _ hkeys, trivial, trivial, ?_, ?_⟩
    · intro hlt
      have : ¬ Song.uploadTime ≤ latency := not_le.mpr hlt
      simp [this]
    · intro hle
      simp [hle]
  · intro hok
    simp only [SeekbarManager.addMarker, Song.addMarker, Song.uploadMarkerDelayedAction,
      Song.upload, hok, hl, Option.map_some', SeekbarManager.addMarkerToSeekbar]
    simp

/-- C12 (evaluation at the failing input): `SeekbarManager.addMarker` is called at time 0
for the song `songMarked`, 50 seconds into a track of 200, and the upload is rejected after
30 ms. The marker list and the seekbar end as they were and the popup reads `Failed`, but
the success timer, armed for 20 ms before the upload started, was not cancelled in time:
the notice `Marked` was shown before `Failed`. Rejected after 5 ms, the timer is cancelled
and `Failed` is the only notice. -/
theorem addMarker_late_failure_shows_success :
    (SeekbarManager.addMarker audioManager50of200 (some songMarked) markersOne popupHidden
        markerApiDown 0 30).song = some songMarked ∧
    (SeekbarManager.addMarker audioManager50of200 (some songMarked) markersOne popupHidden
        markerApiDown 0 30).markers.nodes = markersOne.nodes ∧
    (SeekbarManager.addMarker audioManager50of200 (some songMarked) markersOne popupHidden
        markerApiDown 0 30).popup.popupText = "Failed" ∧
    (SeekbarManager.addMarker audioManager50of200 (some songMarked) markersOne popupHidden
        markerApiDown 0 30).notices = ["Marked", "Failed"] ∧
    (SeekbarManager.addMarker audioManager50of200 (some songMarked) markersOne popupHidden
        markerApiDown 0 5).notices = ["Failed"] ∧
    (SeekbarManager.addMarker audioManager50of200 (some songMarked) markersOne popupHidden
        markerApiDown 0 5).pendingPopup = none := by
  refine ⟨?_, ?_, ?_, ?_, ?_, ?_⟩ <;>
    simp [SeekbarManager.addMarker, Song.addMarker, Song.uploadMarkerDelayedAction,
      Song.upload, markerApiDown, SeekbarManager.addMarkerToSeekbar,
      SeekbarManager.removeMarkerNode, PopupManager.showPopup, Song.uploadTime, markersOne,
      songMarked]

/-- C13 (as stated, refuted): at 50 of 200 seconds the marker `SeekbarManager.addMarker`
uploads and appends is 25, not the fraction `50/200 = 1/4`, and it lies outside `[0,1]`. -/
theorem addMarker_value_is_percent :
    audioManager50of200.getCurrentTime = 50 ∧ audioManager50of200.getDuration = 200 ∧
    (SeekbarManager.addMarker audioManager50of200 (some songMarked) markersOne popupHidden
        markerApiOk 0 5).requests = [.editSongMarker 7 (.add 25)] ∧
    (SeekbarManager.addMarker audioManager50of200 (some songMarked) markersOne popupHidden
        markerApiOk 0 5).song.map (·.marker) = some (some [10, 25]) ∧
    (25 : ℚ) ≠ 50 / 200 ∧ ¬ (25 : ℚ) ≤ 1 := by
  refine ⟨rfl, rfl, ?_, ?_, by norm_num, by norm_num⟩
  · have h : audioManager50of200.getCurrentTime / audioManager50of200.getDuration * 100
        = 25 := by
      norm_num [audioManager50of200, audioManager200, AudioManager.getCurrentTime,
        AudioManager.getDuration]
    simp only [SeekbarManager.addMarker, Song.addMarker, Song.uploadMarkerDelayedAction,
      Song.upload, h]
    rfl
  · have h : audioManager50of200.getCurrentTime / audioManager50of200.getDuration * 100
        = 25 := by
      norm_num [audioManager50of200, audioManager200, AudioManager.getCurrentTime,
        AudioManager.getDuration]
    simp only [SeekbarManager.addMarker, Song.addMarker, Song.uploadMarkerDelayedAction,
      Song.upload, h]
    rfl

/-- C13 (amended): for a playback position `t` and a duration `d` with `d > 0` and
`0 ≤ t ≤ d`, the marker `SeekbarManager.addMarker` uploads, and appends to the marker list
of the song when the upload succeeds, is the percentage `t / d * 100`, which lies in
`[0,100]`. -/
theorem addMarker_value (am : AudioManager) (song : Song) (l : List ℚ) (m : SeekbarMarkers)
    (popup : PopupManager) (api : MarkerApi) (now latency : Int)
    (hd : 0 < am.getDuration) (ht0 : 0 ≤ am.getCurrentTime)
    (htd : am.getCurrentTime ≤ am.getDuration) (hl : song.marker = some l) :
    (SeekbarManager.addMarker am (some song) m popup api now latency).requests
      = [.editSongMarker song.id (.add (am.getCurrentTime / am.getDuration * 100))] ∧
    (api.editSongMarker song.id (.add (am.getCurrentTime / am.getDuration * 100)) = .ok () →
      (SeekbarManager.addMarker am (some song) m popup api now latency).song.map (·.marker)
        = some (some (l ++ [am.getCurrentTime / am.getDuration * 100]))) ∧
    0 ≤ am.getCurrentTime / am.getDuration * 100 ∧
    am.getCurrentTime / am.getDuration * 100 ≤ 100 := by
  refine ⟨?_, ?_, ?_, ?_⟩
  · simp only [SeekbarManager.addMarker, Song.addMarker, Song.uploadMarkerDelayedAction,
      Song.upload]
    cases api.editSongMarker song.id (.add (am.getCurrentTime / am.getDuration * 100)) with
    | error e => rfl
    | ok u => simp [hl]
  · intro hok
    simp [SeekbarManager.addMarker, Song.addMarker, Song.uploadMarkerDelayedAction,
      Song.upload, hok, hl]
  · positivity
  · rw [div_mul_eq_mul_div, div_le_iff₀ hd]
    nlinarith

/-- Witness for C13: at 50 of 200 seconds the request carries `50 / 200 * 100`. -/
theorem addMarker_value_witness :
    (SeekbarManager.addMarker audioManager50of200 (some songMarked) markersOne popupHidden
        markerApiOk 0 5).requests
      = [.editSongMarker songMarked.id
          (.add (audioManager50of200.getCurrentTime / audioManager50of200.getDuration * 100))] :=
  (addMarker_value audioManager50of200 songMarked [10] markersOne popupHidden markerApiOk 0 5
    (by norm_num [audioManager50of200, audioManager200, AudioManager.getDuration])
    (by norm_num [audioManager50of200, audioManager200, AudioManager.getCurrentTime])
    (by norm_num [audioManager50of200, audioManager200, AudioManager.getCurrentTime,
      AudioManager.getDuration])
    rfl).1

/-! ### parseInt -/

theorem digitChar_facts (d : Nat) (h : d < 10) :
    digitValue 10 (Nat.digitChar d) = some d ∧ isWhiteSpace (Nat.digitChar d) = false ∧
    Nat.digitChar d ≠ '-' ∧ Nat.digitChar d ≠ '+' ∧ Nat.digitChar d ≠ 'x' ∧
    Nat.digitChar d ≠ 'X' := by
  interval_cases d <;> decide

theorem toDigitsCore_digits (fuel : Nat) : ∀ (n : Nat) (acc : List Char), n < fuel →
    ∃ ds : List Nat, (∀ d ∈ ds, d < 10) ∧ ds ≠ [] ∧
      ds.foldl (fun a x => a * 10 + x) 0 = n ∧
      Nat.toDigitsCore 10 fuel n acc = ds.map Nat.digitChar ++ acc := by
  induction fuel with
  | zero => intro n acc h; omega
  | succ fuel ih =>
    intro n acc h
    unfold Nat.toDigitsCore
    by_cases h0 : n / 10 = 0
    · refine ⟨[n % 10], ?_, by simp, ?_, ?_⟩
      · intro d hd
        simp only [List.mem_singleton] at hd
        omega
      · simp only [List.foldl_cons, List.foldl_nil]
        omega
      · simp [h0]
    · obtain ⟨ds, hlt, _, hval, heq⟩ := ih (n / 10) (Nat.digitChar (n % 10) :: acc) (by omega)
      refine ⟨ds ++ [n % 10], ?_, by simp, ?_, ?_⟩
      · intro d hd
        rcases List.mem_append.mp hd with hd | hd
        · exact hlt d hd
        · simp only [List.mem_singleton] at hd
          omega
      · rw [List.foldl_append, hval]
        simp only [List.foldl_cons, List.foldl_nil]
        omega
      · simp [h0, heq]

theorem takeDigits_digitChars (ds : List Nat) (h : ∀ d ∈ ds, d < 10) :
    takeDigits 10 (ds.map Nat.digitChar) = ds := by
  induction ds with
  | nil => rfl
  | cons d rest ih =>
    have hd := (digitChar_facts d (h d (List.mem_cons_self _ _))).1
    simp only [List.map_cons, takeDigits, hd]
    rw [ih (fun x hx => h x (List.mem_cons_of_mem _ hx))]

theorem stripHexPrefix_digitChars (ds : List Nat) (h : ∀ d ∈ ds, d < 10) :
    stripHexPrefix (ds.map Nat.digitChar) = (10, ds.map Nat.digitChar) := by
  match ds, h with
  | [], _ => rfl
  | [_], _ => rfl
  | _ :: e :: rest, h =>
    have he := digitChar_facts e (h e (by simp))
    simp [stripHexPrefix, he.2.2.2.2.1, he.2.2.2.2.2]

theorem parseInt_digitChars (s : String) (ds : List Nat) (h : ∀ d ∈ ds, d < 10)
    (hne : ds ≠ []) (hs : s.toList = ds.map Nat.digitChar) :
    parseInt s = some (numberOfInt ((ds.foldl (fun a x => a * 10 + x) 0 : Nat) : Int)) := by
  obtain ⟨d, rest, rfl⟩ := List.exists_cons_of_ne_nil hne
  have hd := digitChar_facts d (h d (List.mem_cons_self _ _))
  have hdrop : (s.toList.dropWhile isWhiteSpace) = (d :: rest).map Nat.digitChar := by
    rw [hs]
    simp [List.dropWhile, hd.2.1]
  have hsign : stripSign ((d :: rest).map Nat.digitChar)
      = (false, (d :: rest).map Nat.digitChar) := by
    simp [stripSign, hd.2.2.1, hd.2.2.2.1]
  unfold parseInt
  simp only [hdrop, hsign, stripHexPrefix_digitChars _ h, takeDigits_digitChars _ h]
  simp

theorem parseInt_minus_digitChars (s : String) (ds : List Nat) (h : ∀ d ∈ ds, d < 10)
    (hne : ds ≠ []) (hs : s.toList = '-' :: ds.map Nat.digitChar) :
    parseInt s
      = some (numberOfInt (-((ds.foldl (fun a x => a * 10 + x) 0 : Nat) : Int))) := by
  obtain ⟨d, rest, rfl⟩ := List.exists_cons_of_ne_nil hne
  have hdrop : (s.toList.dropWhile isWhiteSpace) = '-' :: (d :: rest).map Nat.digitChar := by
    rw [hs]
    have : isWhiteSpace '-' = false := by decide
    simp [List.dropWhile, this]
  have hsign : stripSign ('-' :: (d :: rest).map Nat.digitChar)
      = (true, (d :: rest).map Nat.digitChar) := by
    simp [stripSign]
  unfold parseInt
  simp only [hdrop, hsign, stripHexPrefix_digitChars _ h, takeDigits_digitChars _ h]
  simp

theorem toString_nat_toList (n : Nat) : (toString n).toList = Nat.toDigits 10 n := rfl

/-- The function `parseInt` reads the decimal representation of an integer as the Number
value of that integer. -/
theorem parseInt_toString (n : Int) : parseInt (toString n) = some (numberOfInt n) := by
  cases n with
  | ofNat m =>
    obtain ⟨ds, hlt, hne, hval, heq⟩ := toDigitsCore_digits (m + 1) m [] (by omega)
    have hs : (toString (Int.ofNat m)).toList = ds.map Nat.digitChar := by
      show (toString m).toList = _
      rw [toString_nat_toList, Nat.toDigits, heq, List.append_nil]
    rw [parseInt_digitChars _ ds hlt hne hs, hval]
    rfl
  | negSucc m =>
    obtain ⟨ds, hlt, hne, hval, heq⟩ := toDigitsCore_digits (m + 1 + 1) (m + 1) [] (by omega)
    have hs : (toString (Int.negSucc m)).toList = '-' :: ds.map Nat.digitChar := by
      show ("-" ++ toString (m + 1)).data = _
      rw [String.data_append]
      show ['-'] ++ (toString (m + 1)).toList = _
      rw [toString_nat_toList, Nat.toDigits, heq, List.append_nil]
      rfl
    rw [parseInt_minus_digitChars _ ds hlt hne hs, hval]
    rfl

/-! ### Catalog API middlewares -/

/-- C14: with `DEMO_MODE` on, `checkDemoMode` answers with the demo-mode message and never
calls `next`, so on any route the handlers after it do not run and the store is unchanged;
with `DEMO_MODE` off it sends nothing, leaves the request as it is and calls `next` exactly
once, with no error. -/
theorem checkDemoMode_gate (req : Req) (res : Res) :
    (checkDemoMode true req res).res.json = some "This API is not available in demo mode" ∧
    nextCalls (checkDemoMode true req res).effects = [] ∧
    (∀ (rest : List Handler) (store : List SongRecord),
      (runRoute (asHandler (checkDemoMode true) :: rest) ⟨req, res, store⟩).store = store ∧
      (runRoute (asHandler (checkDemoMode true) :: rest) ⟨req, res, store⟩).res.json
        = some "This API is not available in demo mode") ∧
    (checkDemoMode false req res).res = res ∧
    (checkDemoMode false req res).req = req ∧
    nextCalls (checkDemoMode false req res).effects = [none] ∧
    (∀ (rest : List Handler) (store : List SongRecord),
      runRoute (asHandler (checkDemoMode false) :: rest) ⟨req, res, store⟩
        = runRoute rest ⟨req, res, store⟩) := by
  refine ⟨rfl, rfl, fun rest store => ⟨rfl, rfl⟩, rfl, rfl, rfl, fun rest store => rfl⟩

/-- The scenario of the demo-mode `PATCH`: a route whose handler would empty the store
leaves it as it was and answers with the demo-mode message. -/
theorem checkDemoMode_scenario :
    (runRoute [asHandler (checkDemoMode true), asHandler getId, wipeStore]
        ⟨reqWithId "3", resUnsent, [⟨3, "t", "a", [25]⟩]⟩).store = [⟨3, "t", "a", [25]⟩] ∧
    (runRoute [asHandler (checkDemoMode false), asHandler getId, wipeStore]
        ⟨reqWithId "3", resUnsent, [⟨3, "t", "a", [25]⟩]⟩).store = [] := by
  decide

/-- Below `2 ^ 53` the Number value of an integer is the integer. -/
theorem numberOfInt_of_lt (n : Int) (h : n.natAbs < 2 ^ 53) : numberOfInt n = .finite n := by
  unfold numberOfInt
  rw [if_pos h]

/-- The Number value of an integer is in every case the nearest double, or an infinity
beyond the doubles. -/
theorem numberOfInt_eq_nearest (n : Int) :
    numberOfInt n
      = match toDouble (n : ℚ) with
        | some x => .finite ⌊x⌋
        | none => .infinity (decide (n < 0)) := by
  by_cases h : n.natAbs < 2 ^ 53
  · rw [numberOfInt_of_lt n h, toDouble_intCast n h]
    simp
  · unfold numberOfInt
    rw [if_neg h]

/-- The numeral `9007199254740993` of `2 ^ 53 + 1` is read as the double `2 ^ 53`. -/
theorem numberOfInt_sample : numberOfInt 9007199254740993 = .finite 9007199254740992 := by
  have hr : roundDouble (9007199254740993 : ℚ) = 9007199254740992 := by
    rw [roundDouble_of_log (k := 53) (by norm_num) (by norm_num) (by norm_num) (by norm_num)]
    have h : roundHalfEven ((9007199254740993 : ℚ) / (2 : ℚ) ^ ((53 : Int) - 52))
        = 4503599627370496 := by
      have h2 : (9007199254740993 : ℚ) / (2 : ℚ) ^ ((53 : Int) - 52)
          = ((4503599627370496 : Int) : ℚ) + 1 / 2 := by norm_num
      rw [h2, roundHalfEven_tie]
      decide
    rw [h]
    norm_num
  have ht : toDouble ((9007199254740993 : Int) : ℚ) = some 9007199254740992 := by
    rw [toDouble_of_lt (by norm_num)]
    exact_mod_cast congrArg some hr
  unfold numberOfInt
  rw [if_neg (by decide), ht]
  have hf : ⌊(9007199254740992 : ℚ)⌋ = 9007199254740992 := by
    exact_mod_cast Int.floor_intCast (9007199254740992 : Int)
  simp only [hf]

/-- A numeral beyond the range of the doubles is read as an infinity: for an integer `n`
of `2 ^ 1024` or more, `getId` accepts the decimal representation of `n` and sets `req.id`
to `Infinity`. -/
theorem getId_huge_numeral (n : Int) (h : (2 : ℚ) ^ (1024 : ℕ) ≤ (n : ℚ)) :
    numberOfInt n = .infinity false ∧
    (getId (reqWithId (toString n)) resUnsent).req.id = some (.infinity false) ∧
    (getId (reqWithId (toString n)) resUnsent).effects = [.next none] := by
  have hq0 : (0 : ℚ) ≤ (n : ℚ) := le_trans (by positivity) h
  have h0 : (0 : Int) ≤ n := by exact_mod_cast hq0
  have hn : numberOfInt n = .infinity false := by
    have ht : toDouble (n : ℚ) = none := by
      unfold toDouble
      rw [if_pos]
      rw [abs_of_nonneg hq0]
      have hpos : (0 : ℚ) < (2 : ℚ) ^ (970 : ℕ) := by positivity
      linarith
    have hbig : ¬ n.natAbs < 2 ^ 53 := by
      intro hlt
      have h1 : ((n.natAbs : ℕ) : ℚ) < 2 ^ (53 : ℕ) := by exact_mod_cast hlt
      rw [Nat.cast_natAbs, abs_of_nonneg h0] at h1
      have h2 : (2 : ℚ) ^ (53 : ℕ) ≤ 2 ^ (1024 : ℕ) := by norm_num
      linarith
    have hneg : ¬ n < 0 := not_lt.mpr h0
    unfold numberOfInt
    rw [if_neg hbig, ht]
    simp [hneg]
  have hp : parseInt (toString n) = some (.infinity false) := by
    rw [parseInt_toString, hn]
  refine ⟨hn, ?_, ?_⟩
  · unfold getId
    simp only [reqWithId, hp]
  · unfold getId
    simp only [reqWithId, hp]

/-- The decimal representation of an integer starts with a digit or a minus sign. -/
theorem toString_int_head (n : Int) :
    ∃ c cs, (toString n).toList = c :: cs ∧
      (c = '-' ∨ ∃ d, d < 10 ∧ c = Nat.digitChar d) ∧
      ∀ x ∈ cs, ∃ d, d < 10 ∧ x = Nat.digitChar d := by
  cases n with
  | ofNat m =>
    obtain ⟨ds, hlt, hne, _, heq⟩ := toDigitsCore_digits (m + 1) m [] (by omega)
    obtain ⟨d, rest, rfl⟩ := List.exists_cons_of_ne_nil hne
    refine ⟨Nat.digitChar d, rest.map Nat.digitChar, ?_, ?_, ?_⟩
    · show (toString m).toList = _
      rw [toString_nat_toList, Nat.toDigits, heq, List.append_nil]
      rfl
    · exact Or.inr ⟨d, hlt d (List.mem_cons_self _ _), rfl⟩
    · intro x hx
      obtain ⟨e, he, rfl⟩ := List.mem_map.mp hx
      exact ⟨e, hlt e (List.mem_cons_of_mem _ he), rfl⟩
  | negSucc m =>
    obtain ⟨ds, hlt, _, _, heq⟩ := toDigitsCore_digits (m + 1 + 1) (m + 1) [] (by omega)
    refine ⟨'-', ds.map Nat.digitChar, ?_, Or.inl rfl, ?_⟩
    · show ("-" ++ toString (m + 1)).data = _
      rw [String.data_append]
      show ['-'] ++ (toString (m + 1)).toList = _
      rw [toString_nat_toList, Nat.toDigits, heq, List.append_nil]
      rfl
    · intro x hx
      obtain ⟨e, he, rfl⟩ := List.mem_map.mp hx
      exact ⟨e, hlt e he, rfl⟩

/-- C15 (as stated, refuted): the path parameter `12abc` is the decimal representation of
no integer, yet `getId` sets `req.id = 12` and calls `next` with no error; and for
`9007199254740993`, the decimal representation of `2 ^ 53 + 1`, `getId` sets `req.id` to
the double `9007199254740992`. -/
theorem getId_accepts_numeric_start :
    (∀ n : Int, toString n ≠ "12abc") ∧
    (getId (reqWithId "12abc") resUnsent).req.id = some 12 ∧
    (getId (reqWithId "12abc") resUnsent).effects = [.next none] ∧
    toString (9007199254740993 : Int) = "9007199254740993" ∧
    (getId (reqWithId "9007199254740993") resUnsent).req.id = some 9007199254740992 ∧
    (getId (reqWithId "9007199254740993") resUnsent).effects = [.next none] := by
  have hbig : parseInt "9007199254740993" = some (.finite 9007199254740992) := by
    have h := parseInt_toString 9007199254740993
    rw [numberOfInt_sample] at h
    exact h
  refine ⟨?_, by decide, by decide, by decide, ?_, ?_⟩
  · intro n h
    obtain ⟨c, cs, hcs, _, htail⟩ := toString_int_head n
    rw [h] at hcs
    have hc : cs = ['2', 'a', 'b', 'c'] := by
      have h2 : "12abc".toList = ['1', '2', 'a', 'b', 'c'] := rfl
      rw [h2] at hcs
      injection hcs with _ h3
      exact h3.symm
    obtain ⟨d, hd, hda⟩ := htail 'a' (by rw [hc]; simp)
    interval_cases d <;> exact absurd hda (by decide)
  · show (getId ⟨⟨"9007199254740993"⟩, _, _, _, _⟩ resUnsent).req.id = _
    unfold getId
    simp only [hbig]
    rfl
  · show (getId ⟨⟨"9007199254740993"⟩, _, _, _, _⟩ resUnsent).effects = _
    unfold getId
    simp only [hbig]

/-- C15 (amended): `getId` passes the error `Invalid song id` to `next` exactly when
`parseInt` of the path parameter is `NaN`, and then leaves the request, `req.id` included,
as it was; otherwise it sets `req.id` to the Number `parseInt` read and calls `next` with
no error; for the decimal representation of an integer `n` that Number is the Number value
of `n` (the nearest double, or an infinity), which is `n` itself when `|n| < 2 ^ 53`. -/
theorem getId_parseInt (req : Req) (res : Res) :
    ((getId req res).effects = [.next (some "Invalid song id")]
      ↔ parseInt req.params.id = none) ∧
    (parseInt req.params.id = none →
      (getId req res).effects = [.next (some "Invalid song id")] ∧
      (getId req res).req = req) ∧
    (∀ v : IntegralNumber, parseInt req.params.id = some v →
      (getId req res).effects = [.next none] ∧ (getId req res).req.id = some v) ∧
    (∀ n : Int, req.params.id = toString n →
      (getId req res).effects = [.next none] ∧
      (getId req res).req.id = some (numberOfInt n)) ∧
    (∀ n : Int, n.natAbs < 2 ^ 53 → req.params.id = toString n →
      (getId req res).effects = [.next none] ∧
      (getId req res).req.id = some (.finite n)) := by
  have hnone : parseInt req.params.id = none →
      (getId req res).effects = [.next (some "Invalid song id")] ∧
      (getId req res).req = req := by
    intro h
    simp [getId, h]
  have hsome : ∀ v : IntegralNumber, parseInt req.params.id = some v →
      (getId req res).effects = [.next none] ∧ (getId req res).req.id = some v := by
    intro v h
    simp [getId, h]
  have hstr : ∀ n : Int, req.params.id = toString n →
      (getId req res).effects = [.next none] ∧
      (getId req res).req.id = some (numberOfInt n) := by
    intro n h
    exact hsome _ (by rw [h]; exact parseInt_toString n)
  refine ⟨⟨?_, fun h => (hnone h).1⟩, hnone, hsome, hstr, ?_⟩
  · intro h
    cases hp : parseInt req.params.id with
    | none => rfl
    | some v =>
      rw [(hsome v hp).1] at h
      exact absurd h (by decide)
  · intro n hn h
    have h2 := hstr n h
    rw [numberOfInt_of_lt n hn] at h2
    exact h2

/-- Witness for C15: `abc` and `0x` are rejected with `req.id` left unset, and `-42` is
accepted. -/
theorem getId_parseInt_witness :
    ((getId (reqWithId "abc") resUnsent).effects = [.next (some "Invalid song id")] ∧
      (getId (reqWithId "abc") resUnsent).req = reqWithId "abc") ∧
    ((getId (reqWithId "0x") resUnsent).effects = [.next (some "Invalid song id")] ∧
      (getId (reqWithId "0x") resUnsent).req = reqWithId "0x") ∧
    ((getId (reqWithId "-42") resUnsent).effects = [.next none] ∧
      (getId (reqWithId "-42") resUnsent).req.id = some (-42)) :=
  ⟨(getId_parseInt (reqWithId "abc") resUnsent).2.1 (by decide),
   (getId_parseInt (reqWithId "0x") resUnsent).2.1 (by decide),
   (getId_parseInt (reqWithId "-42") resUnsent).2.2.2.2 (-42) (by decide) (by decide)⟩

/-- For an id other than zero `getSong` looks it up: a missing song gives the error
`Song not found`, a song found is put in `req.song` and `next` is called with no error, and
a rejected lookup is passed to `next` as it is. -/
theorem getSong_nonzero (findSong : IntegralNumber → Except String (Option SongRecord))
    (req : Req) (res : Res) (id : IntegralNumber) (hid : req.id = some id) (h0 : id ≠ 0) :
    (findSong id = .ok none →
      (getSong findSong req res).effects = [.findSong id, .next (some "Song not found")]) ∧
    (∀ song, findSong id = .ok (some song) →
      (getSong findSong req res).effects = [.findSong id, .next none] ∧
      (getSong findSong req res).req.song = some (some song)) ∧
    (∀ err, findSong id = .error err →
      (getSong findSong req res).effects = [.findSong id, .next (some err)]) := by
  refine ⟨?_, ?_, ?_⟩
  · intro h
    simp [getSong, hid, h0, h]
  · intro song h
    simp [getSong, hid, h0, h]
  · intro err h
    simp [getSong, hid, h0, h]

/-- C16 (evaluation at the failing input): for the path parameter `0`, `getId` accepts the
id and stores `req.id = 0`; `getSong` then passes the error `No id` to `next` without
looking the id up, although the lookup would find a song. -/
theorem getSong_id_zero :
    (getId (reqWithId "0") resUnsent).req.id = some 0 ∧
    (getId (reqWithId "0") resUnsent).effects = [.next none] ∧
    (findSongSample 0).toOption = some (some ⟨0, "t", "a", []⟩) ∧
    (getSong findSongSample (getId (reqWithId "0") resUnsent).req resUnsent).effects
      = [.next (some "No id")] ∧
    (getSong findSongSample (getId (reqWithId "0") resUnsent).req resUnsent).req.song
      = none := by
  decide

/-- When the required query parameter is missing or empty, each import middleware calls
`next` once, with its error, and calls no library. -/
theorem import_missing_parameter (yt : YouTube) (req : Req) (res : Res) :
    (paramTruthy req.query.query = false →
      (searchYTSong yt req res).effects = [.next (some "Invalid query")]) ∧
    (paramTruthy req.query.url = false →
      (getYTPlaylist yt req res).effects = [.next (some "No url")] ∧
      (getYTSong yt req res).effects = [.next (some "No url")] ∧
      (downloadYTSong yt req res).effects = [.next (some "No url")]) := by
  constructor
  · intro h
    simp [searchYTSong, h]
  · intro h
    simp [getYTPlaylist, getYTSong, downloadYTSong, h]

/-- With the required query parameter present, no import middleware calls `next`. -/
theorem import_never_calls_next (yt : YouTube) (req : Req) (res : Res) :
    (paramTruthy req.query.query = true →
      nextCalls (searchYTSong yt req res).effects = []) ∧
    (paramTruthy req.query.url = true →
      nextCalls (getYTPlaylist yt req res).effects = [] ∧
      nextCalls (getYTSong yt req res).effects = [] ∧
      nextCalls (downloadYTSong yt req res).effects = []) := by
  constructor
  · intro h
    simp only [searchYTSong, h, if_true]
    split <;> rfl
  · intro h
    simp only [getYTPlaylist, getYTSong, downloadYTSong, h, if_true]
    exact ⟨rfl, rfl, rfl⟩

/-- C19 (evaluation at the failing input): with the query parameters `query=abc` and
`url=u` present and the libraries answering, each of the four import middlewares stores the
result in `req.results` and returns without calling `next`. -/
theorem import_success_no_next :
    (searchYTSong youTubeUp (reqWithQuery (some "abc") (some "u")) resUnsent).effects
      = [.search "abc"] ∧
    (getYTPlaylist youTubeUp (reqWithQuery (some "abc") (some "u")) resUnsent).effects
      = [.getPlaylist "u"] ∧
    (getYTSong youTubeUp (reqWithQuery (some "abc") (some "u")) resUnsent).effects
      = [.getYSong "u"] ∧
    (downloadYTSong youTubeUp (reqWithQuery (some "abc") (some "u")) resUnsent).effects
      = [.downloadSong "u"] ∧
    (getYTPlaylist youTubeUp (reqWithQuery (some "abc") (some "u")) resUnsent).req.results
      = some ⟨"playlist of u"⟩ ∧
    nextCalls (getYTPlaylist youTubeUp (reqWithQuery (some "abc") (some "u")) resUnsent).effects
      = [] := by
  decide

/-! ### The persisted sort order -/

/-- Whatever flag `toggleSortByModifiedDate` persists, a page initialized from that storage
sorts by modified time; so does a page initialized from a storage with nothing stored. -/
theorem init_after_toggle_truthy (api : ApiManager) (sm : SongManager) (ls : LocalStorage)
    (popup : PopupManager) :
    (SongManager.init (SongManager.toggleSortByModifiedDate api sm ls popup).2.1
      ).sortByModifiedDate.truthy = true ∧
    (SongManager.init LocalStorage.empty).sortByModifiedDate.truthy = true := by
  constructor
  · simp [SongManager.toggleSortByModifiedDate, SongManager.init, LocalStorage.setItem,
      LocalStorage.getItem, Stored.nonEmpty, SortFlag.truthy]
  · rfl

/-- C17 (evaluation at the failing input): toggling from the default leaves the flag at
`false`, persists it, and the page then requests pages in id order; a page initialized from
that storage reads the flag back as a non-empty string, which is truthy, and requests its
pages sorted by modified time. -/
theorem sort_flag_false_not_restored :
    (SongManager.toggleSortByModifiedDate apiEmpty (SongManager.init LocalStorage.empty)
        LocalStorage.empty popupHidden).1.state.sortByModifiedDate = .bool false ∧
    (SongManager.toggleSortByModifiedDate apiEmpty (SongManager.init LocalStorage.empty)
        LocalStorage.empty popupHidden).1.requests = [Request.songsOffset 0 false] ∧
    storageSortById.getItem "sortByModifiedDate" = some (Stored.bool false) ∧
    (SongManager.init storageSortById).sortByModifiedDate = .string (Stored.bool false) ∧
    (SongManager.init storageSortById).sortByModifiedDate.truthy = true ∧
    (SongManager.getNewSongs apiEmpty (SongManager.init storageSortById)).requests
      = [Request.songsOffset 0 true] := by
  decide

/-! ### SearchManager.selectNext and selectPrevious -/

/-- C18 (as stated, refuted): with three results and the last one highlighted,
`SearchManager.selectNext` leaves no result highlighted and puts the focus in the search
input, while `SongManager.selectNext` on a list of three with the last item active wraps to
the first; likewise for `selectPrevious` from the first position. -/
theorem search_select_does_not_wrap :
    searchThreeResults.results.length = stateThreeSongsLast.songList.length ∧
    searchThreeResults.currentResultItem = stateThreeSongsLast.currentSongItem ∧
    searchThreeResults.selectNext.currentResultItem = none ∧
    searchThreeResults.selectNext.searchInputIsSelected = true ∧
    (stateThreeSongsLast.selectNext audioManager200 0).state.1.currentSongItem
      = some (.child 0) ∧
    ({ searchThreeResults with currentResultItem := some (.child 0) } : SearchManager
      ).selectPrevious.currentResultItem = none ∧
    ({ searchThreeResults with currentResultItem := some (.child 0) } : SearchManager
      ).selectPrevious.searchInputIsSelected = true ∧
    (({ stateThreeSongsLast with currentSongItem := some (.child 0) } : SongManager
      ).selectPrevious audioManager200 0).state.1.currentSongItem = some (.child 2) := by
  decide

/-- C18 (amended): on a non-empty result list, `SearchManager.selectNext` and
`selectPrevious` move the highlight to the position `SongManager.selectNext` and
`selectPrevious` (outside their cooldown) move the active item to in a list of the same
length, from no highlight and from every position but the end they move toward, and the
search input loses the focus; from the last result `selectNext`, and from the first result
`selectPrevious`, leave no result highlighted and give the focus back to the search input,
where the list controller wraps around. Nothing else in the search changes. -/
theorem search_select_mirrors (s : SearchManager) (sm : SongManager) (am : AudioManager)
    (now : Int) (hlen : sm.songList.length = s.results.length) (hne : 1 ≤ s.results.length)
    (hcur : sm.currentSongItem = s.currentResultItem)
    (hnext : ∀ last, sm.selectNextTimeout = some last → 100 ≤ now - last)
    (hprev : ∀ last, sm.selectPreviousTimeout = some last → 100 ≤ now - last) :
    (s.currentResultItem = none →
      s.selectNext
        = { s with searchInputIsSelected := false, currentResultItem := some (.child 0) } ∧
      (sm.selectNext am now).state.1.currentSongItem = some (.child 0) ∧
      s.selectPrevious
        = { s with
            searchInputIsSelected := false
            currentResultItem := some (.child (s.results.length - 1)) } ∧
      (sm.selectPrevious am now).state.1.currentSongItem
        = some (.child (s.results.length - 1))) ∧
    (∀ i, s.currentResultItem = some (.child i) → i + 1 < s.results.length →
      s.selectNext
        = { s with
            searchInputIsSelected := false, currentResultItem := some (.child (i + 1)) } ∧
      (sm.selectNext am now).state.1.currentSongItem = some (.child (i + 1))) ∧
    (∀ i, s.currentResultItem = some (.child i) → 0 < i →
      s.selectPrevious
        = { s with
            searchInputIsSelected := false, currentResultItem := some (.child (i - 1)) } ∧
      (sm.selectPrevious am now).state.1.currentSongItem = some (.child (i - 1))) ∧
    (∀ i, s.currentResultItem = some (.child i) → i + 1 = s.results.length →
      s.selectNext = { s with searchInputIsSelected := true, currentResultItem := none } ∧
      (sm.selectNext am now).state.1.currentSongItem = some (.child 0)) ∧
    (s.currentResultItem = some (.child 0) →
      s.selectPrevious = { s with searchInputIsSelected := true, currentResultItem := none } ∧
      (sm.selectPrevious am now).state.1.currentSongItem
        = some (.child (s.results.length - 1))) := by
  have hpos : 0 < s.results.length := hne
  have hpos' : 0 < sm.songList.length := by rw [hlen]; exact hpos
  have hcoolN : (match sm.selectNextTimeout with
      | some last => decide (now - last < SongManager.selectPrevNextWaitTime)
      | none => false) = false := by
    cases h : sm.selectNextTimeout with
    | none => rfl
    | some last =>
      have := hnext last h
      simp only [SongManager.selectPrevNextWaitTime, decide_eq_false_iff_not, not_lt]
      exact this
  have hcoolP : (match sm.selectPreviousTimeout with
      | some last => decide (now - last < SongManager.selectPrevNextWaitTime)
      | none => false) = false := by
    cases h : sm.selectPreviousTimeout with
    | none => rfl
    | some last =>
      have := hprev last h
      simp only [SongManager.selectPrevNextWaitTime, decide_eq_false_iff_not, not_lt]
      exact this
  refine ⟨?_, ?_, ?_, ?_, ?_⟩
  · intro h
    have h' : sm.currentSongItem = none := by rw [hcur, h]
    refine ⟨?_, ?_, ?_, ?_⟩
    · simp [SearchManager.selectNext, h, SearchManager.setActive, firstElementChild, hpos]
    · unfold SongManager.selectNext
      simp [hcoolN, h', firstElementChild, hpos', SongManager.setActive,
        SongManager.scrollToCurrentSongItem, Completion.state]
    · simp [SearchManager.selectPrevious, h, SearchManager.setActive, lastElementChild, hpos]
    · unfold SongManager.selectPrevious
      simp [hcoolP, h', lastElementChild, hpos, SongManager.setActive,
        SongManager.scrollToCurrentSongItem, Completion.state, hlen]
  · intro i h hi
    have h' : sm.currentSongItem = some (.child i) := by rw [hcur, h]
    have hi' : i + 1 < sm.songList.length := by rw [hlen]; exact hi
    refine ⟨?_, ?_⟩
    · simp [SearchManager.selectNext, h, SearchManager.setActive, nextElementSibling, hi]
    · unfold SongManager.selectNext
      simp [hcoolN, h', nextElementSibling, hi', SongManager.setActive,
        SongManager.scrollToCurrentSongItem, Completion.state]
  · intro i h hi
    have h' : sm.currentSongItem = some (.child i) := by rw [hcur, h]
    refine ⟨?_, ?_⟩
    · simp [SearchManager.selectPrevious, h, SearchManager.setActive, previousElementSibling,
        hi]
    · unfold SongManager.selectPrevious
      simp [hcoolP, h', previousElementSibling, hi, SongManager.setActive,
        SongManager.scrollToCurrentSongItem, Completion.state]
  · intro i h hi
    have h' : sm.currentSongItem = some (.child i) := by rw [hcur, h]
    have hn : ¬ i + 1 < s.results.length := by omega
    have hn' : ¬ i + 1 < sm.songList.length := by rw [hlen]; exact hn
    refine ⟨?_, ?_⟩
    · simp [SearchManager.selectNext, h, SearchManager.setActive, nextElementSibling, hn]
    · unfold SongManager.selectNext
      simp [hcoolN, h', nextElementSibling, hn', firstElementChild, hpos',
        SongManager.setActive, SongManager.scrollToCurrentSongItem, Completion.state]
  · intro h
    have h' : sm.currentSongItem = some (.child 0) := by rw [hcur, h]
    refine ⟨?_, ?_⟩
    · simp [SearchManager.selectPrevious, h, SearchManager.setActive, previousElementSibling]
    · unfold SongManager.selectPrevious
      simp [hcoolP, h', previousElementSibling, lastElementChild, hpos,
        SongManager.setActive, SongManager.scrollToCurrentSongItem, Completion.state, hlen]

/-- Witness for C18: three results and three songs. With the second one highlighted and
active both `selectNext` move to the third and the input loses the focus; with the third
one highlighted `SearchManager.selectNext` leaves no highlight and focuses the input. -/
theorem search_select_mirrors_witness :
    (({ searchThreeResults with currentResultItem := some (.child 1) } : SearchManager
      ).selectNext.currentResultItem = some (.child 2) ∧
     ({ searchThreeResults with currentResultItem := some (.child 1) } : SearchManager
      ).selectNext.searchInputIsSelected = false) ∧
    (({ stateThreeSongsLast with currentSongItem := some (.child 1) } : SongManager
      ).selectNext audioManager200 0).state.1.currentSongItem = some (.child 2) ∧
    (searchThreeResults.selectNext.currentResultItem = none ∧
     searchThreeResults.selectNext.searchInputIsSelected = true) :=
  ⟨by
      rw [((search_select_mirrors
        ({ searchThreeResults with currentResultItem := some (.child 1) } : SearchManager)
        ({ stateThreeSongsLast with currentSongItem := some (.child 1) } : SongManager)
        audioManager200 0 rfl (by decide) rfl
        (by intro last h; cases h) (by intro last h; cases h)).2.1 1 rfl (by decide)).1]
      exact ⟨rfl, rfl⟩,
   ((search_select_mirrors
      ({ searchThreeResults with currentResultItem := some (.child 1) } : SearchManager)
      ({ stateThreeSongsLast with currentSongItem := some (.child 1) } : SongManager)
      audioManager200 0 rfl (by decide) rfl
      (by intro last h; cases h) (by intro last h; cases h)).2.1 1 rfl (by decide)).2,
   by
      rw [((search_select_mirrors searchThreeResults stateThreeSongsLast audioManager200 0
        rfl (by decide) rfl (by intro last h; cases h) (by intro last h; cases h)).2.2.2.1
        2 rfl rfl).1]
      exact ⟨rfl, rfl⟩⟩

end OsumPlayer
